import Mathlib

/-!
Shallow embedding of the membership-authorization and cross-aggregate
consistency core of the user-service (Go sources:
`models/organization.model.go`, `models/team.model.go`, `models/user.model.go`,
`repositories/organization.repository.go`, `repositories/team.repository.go`,
`repositories/user.repository.go`, `services/organization.service.go`,
`services/team.service.go`, `services/user.service.go`).

Conventions of the embedding:
* Timestamps are abstract `Nat` values passed explicitly wherever the Go code
  calls `time.Now()`.
* The Mongo store is a `Store` of three lists of aggregates.  A Mongo
  `UpdateOne` / `DeleteOne` keyed on the unique `_id` (resp. the unique
  `userId` for users) is embedded as an update/removal of the first matching
  list element.
* Goroutine-based event publication has no effect on the store or on the
  returned error and is therefore not part of the state.
* Best-effort reverse-reference writes are parameterised by an explicit
  failure oracle (`reverseFails`, ...): when the oracle says the write fails,
  the Go code logs and continues, so the embedding simply skips that write.
* Primary (authoritative) store writes are modelled as succeeding
  ("absent store failure"); every service-level error in the embedding is one
  of the pre-write policy/invariant/validation rejections of the Go code,
  carried as the Go error string.
* Profile/branding fields that no claim and no control flow depends on
  (description, logoUrl, settings, ...) are omitted from the aggregates;
  `name` is kept because the repository update paths check it as a natural
  key.  The retained fields and all control flow follow the Go source line by
  line.
-/

/-- `OrganizationMemberRole` from `organization.model.go` (owner/admin/member). -/
inductive OrganizationMemberRole
  | owner
  | admin
  | member
deriving DecidableEq

/-- `TeamMemberRole` from `team.model.go` (owner/admin/member/viewer). -/
inductive TeamMemberRole
  | owner
  | admin
  | member
  | viewer
deriving DecidableEq

/-- `UserRole` from `user.model.go`. -/
inductive UserRole
  | user
  | presenter
  | admin
deriving DecidableEq

/-- `UserStatus` from `user.model.go`. -/
inductive UserStatus
  | active
  | inactive
  | pending
deriving DecidableEq

/-- `OrganizationMember` embedded record (userId, role, joinedAt, invitedBy). -/
structure OrganizationMember where
  userId : String
  role : OrganizationMemberRole
  joinedAt : Nat
  invitedBy : String
deriving DecidableEq

/-- `TeamMember` embedded record (userId, role, joinedAt, invitedBy). -/
structure TeamMember where
  userId : String
  role : TeamMemberRole
  joinedAt : Nat
  invitedBy : String
deriving DecidableEq

/-- `Organization` aggregate, restricted to the fields the claims are about
plus the natural-key `name`. -/
structure Organization where
  id : String
  name : String
  members : List OrganizationMember
  teamIds : List String
  updatedAt : Nat
deriving DecidableEq

/-- `Team` aggregate, restricted to the fields the claims are about plus the
natural-key `name` (unique within its parent organization). -/
structure Team where
  id : String
  name : String
  organizationId : String
  members : List TeamMember
  updatedAt : Nat
deriving DecidableEq

/-- `User` aggregate, restricted to the fields the claims are about
(`organizationIds` and `teamIds` are the denormalized reverse-reference sets). -/
structure User where
  userId : String
  email : String
  firstName : String
  lastName : String
  role : UserRole
  status : UserStatus
  organizationIds : List String
  teamIds : List String
  updatedAt : Nat
deriving DecidableEq

/-- `Organization.GetMember`: first member whose `UserID` matches. -/
def Organization.getMember (o : Organization) (userID : String) : Option OrganizationMember :=
  o.members.find? (fun m => decide (m.userId = userID))

/-- `Organization.IsMember`. -/
def Organization.isMember (o : Organization) (userID : String) : Bool :=
  (o.getMember userID).isSome

/-- `Organization.HasRole`: the member exists and its role is one of `roles`. -/
def Organization.hasRole (o : Organization) (userID : String)
    (roles : List OrganizationMemberRole) : Bool :=
  match o.getMember userID with
  | none => false
  | some m => roles.any (fun r => decide (m.role = r))

/-- `Team.GetMember`: first member whose `UserID` matches. -/
def Team.getMember (t : Team) (userID : String) : Option TeamMember :=
  t.members.find? (fun m => decide (m.userId = userID))

/-- `Team.IsMember`. -/
def Team.isMember (t : Team) (userID : String) : Bool :=
  (t.getMember userID).isSome

/-- `Team.HasRole`. -/
def Team.hasRole (t : Team) (userID : String) (roles : List TeamMemberRole) : Bool :=
  match t.getMember userID with
  | none => false
  | some m => roles.any (fun r => decide (m.role = r))

/-- The inline owner-count loop of the organization service
(`for _, m := range org.Members if m.Role == Owner ownerCount++`). -/
def countOrgOwners (o : Organization) : Nat :=
  o.members.countP (fun m => decide (m.role = OrganizationMemberRole.owner))

/-- The inline owner-count loop of the team service. -/
def countTeamOwners (t : Team) : Nat :=
  t.members.countP (fun m => decide (m.role = TeamMemberRole.owner))

/-- `models.NewOrganization`: creator inserted as sole Owner (uuid generation is
replaced by an explicit `id` argument; profile fields omitted). -/
def newOrganization (id name createdBy : String) (now : Nat) : Organization :=
  { id := id
    name := name
    members := [⟨createdBy, OrganizationMemberRole.owner, now, ""⟩]
    teamIds := []
    updatedAt := now }

/-- `models.NewTeam`: creator inserted as sole Owner. -/
def newTeam (id name organizationId createdBy : String) (now : Nat) : Team :=
  { id := id
    name := name
    organizationId := organizationId
    members := [⟨createdBy, TeamMemberRole.owner, now, ""⟩]
    updatedAt := now }

/-- Update the role of the first team member whose `userId` matches
(the in-place `t.Members[i].Role = role` of the Go model methods, and the
Mongo positional `members.$.role` update of the repositories). -/
def teamSetRoleFirst : List TeamMember → String → TeamMemberRole → List TeamMember
  | [], _, _ => []
  | m :: rest, uid, r =>
    if m.userId = uid then { m with role := r } :: rest
    else m :: teamSetRoleFirst rest uid r

/-- Same as `teamSetRoleFirst` for organization members. -/
def orgSetRoleFirst : List OrganizationMember → String → OrganizationMemberRole →
    List OrganizationMember
  | [], _, _ => []
  | m :: rest, uid, r =>
    if m.userId = uid then { m with role := r } :: rest
    else m :: orgSetRoleFirst rest uid r

/-- Remove the first team member whose `userId` matches (the Go model
`RemoveMember` loop: `append(t.Members[:i], t.Members[i+1:]...)`). -/
def teamRemoveFirstMember : List TeamMember → String → List TeamMember
  | [], _ => []
  | m :: rest, uid => if m.userId = uid then rest else m :: teamRemoveFirstMember rest uid

/-- In-memory model method `Team.AddMember` (`team.model.go`): if the user is
already a member, update its role in place when different (returning whether
anything changed); otherwise append a new entry with `JoinedAt := now`. -/
def Team.addMember (t : Team) (userID : String) (role : TeamMemberRole)
    (invitedBy : String) (now : Nat) : Team × Bool :=
  match t.members.find? (fun m => decide (m.userId = userID)) with
  | some m =>
    if m.role = role then (t, false)
    else ({ t with members := teamSetRoleFirst t.members userID role, updatedAt := now }, true)
  | none =>
    ({ t with members := t.members ++ [⟨userID, role, now, invitedBy⟩], updatedAt := now }, true)

/-- In-memory model method `Team.UpdateMember` (`team.model.go`). -/
def Team.updateMember (t : Team) (userID : String) (role : TeamMemberRole)
    (now : Nat) : Team × Bool :=
  match t.members.find? (fun m => decide (m.userId = userID)) with
  | some m =>
    if m.role = role then (t, false)
    else ({ t with members := teamSetRoleFirst t.members userID role, updatedAt := now }, true)
  | none => (t, false)

/-- In-memory model method `Team.RemoveMember` (`team.model.go`). -/
def Team.removeMember (t : Team) (userID : String) (now : Nat) : Team × Bool :=
  if t.members.any (fun m => decide (m.userId = userID)) then
    ({ t with members := teamRemoveFirstMember t.members userID, updatedAt := now }, true)
  else (t, false)

/-- `OrganizationRepository.AddMember`, members-array part: the repository
first counts documents matching `{_id, members.userId}`; if the member exists
it sets `members.$.role` (first matching array element) unconditionally,
otherwise it pushes a fresh entry with `joinedAt := now`. -/
def orgMembersAddMember (members : List OrganizationMember) (userID : String)
    (role : OrganizationMemberRole) (invitedBy : String) (now : Nat) :
    List OrganizationMember :=
  if members.any (fun m => decide (m.userId = userID)) then
    orgSetRoleFirst members userID role
  else
    members ++ [⟨userID, role, now, invitedBy⟩]

/-- `TeamRepository.AddMember`, members-array part (same shape as the
organization repository). -/
def teamMembersAddMember (members : List TeamMember) (userID : String)
    (role : TeamMemberRole) (invitedBy : String) (now : Nat) : List TeamMember :=
  if members.any (fun m => decide (m.userId = userID)) then
    teamSetRoleFirst members userID role
  else
    members ++ [⟨userID, role, now, invitedBy⟩]

/-- Mongo `UpdateOne` keyed on the unique `_id`: update the first matching
organization document. -/
def updateFirstOrg : List Organization → String → (Organization → Organization) →
    List Organization
  | [], _, _ => []
  | o :: rest, oid, f => if o.id = oid then f o :: rest else o :: updateFirstOrg rest oid f

/-- Mongo `UpdateOne` keyed on the unique `_id`: update the first matching
team document. -/
def updateFirstTeam : List Team → String → (Team → Team) → List Team
  | [], _, _ => []
  | t :: rest, tid, f => if t.id = tid then f t :: rest else t :: updateFirstTeam rest tid f

/-- Mongo `UpdateOne` keyed on the unique `userId`: update the first matching
user document. -/
def updateFirstUser : List User → String → (User → User) → List User
  | [], _, _ => []
  | u :: rest, uid, f => if u.userId = uid then f u :: rest else u :: updateFirstUser rest uid f

/-- Mongo `DeleteOne` keyed on the unique `_id` (`OrganizationRepository.Delete`). -/
def removeFirstOrg : List Organization → String → List Organization
  | [], _ => []
  | o :: rest, oid => if o.id = oid then rest else o :: removeFirstOrg rest oid

/-- Mongo `DeleteOne` keyed on the unique `_id` (`TeamRepository.Delete`;
`DeleteOne` reports no error when nothing matches). -/
def removeFirstTeam : List Team → String → List Team
  | [], _ => []
  | t :: rest, tid => if t.id = tid then rest else t :: removeFirstTeam rest tid

/-- `OrganizationRepository.AddMember` at store level. -/
def orgRepoAddMember (orgs : List Organization) (orgID userID : String)
    (role : OrganizationMemberRole) (invitedBy : String) (now : Nat) : List Organization :=
  updateFirstOrg orgs orgID (fun o =>
    { o with members := orgMembersAddMember o.members userID role invitedBy now
             updatedAt := now })

/-- `TeamRepository.AddMember` at store level. -/
def teamRepoAddMember (teams : List Team) (teamID userID : String)
    (role : TeamMemberRole) (invitedBy : String) (now : Nat) : List Team :=
  updateFirstTeam teams teamID (fun t =>
    { t with members := teamMembersAddMember t.members userID role invitedBy now
             updatedAt := now })

/-- `OrganizationRepository.RemoveMember`: a `$pull` of every member entry with
the given `userId` plus a `$set` of `updatedAt`.  `ModifiedCount` is zero (and
the repository returns the "member not found" error) exactly when no document
matched the `_id` filter: when the document exists the `$set updatedAt` alone
already modifies it, so no error is reported even if the member was absent. -/
def orgRepoRemoveMember (orgs : List Organization) (orgID userID : String) (now : Nat) :
    Except String (List Organization) :=
  if orgs.any (fun o => decide (o.id = orgID)) then
    .ok (updateFirstOrg orgs orgID (fun o =>
      { o with members := o.members.filter (fun m => !(decide (m.userId = userID)))
               updatedAt := now }))
  else
    .error "member not found in organization"

/-- `TeamRepository.RemoveMember` (same shape as the organization repository). -/
def teamRepoRemoveMember (teams : List Team) (teamID userID : String) (now : Nat) :
    Except String (List Team) :=
  if teams.any (fun t => decide (t.id = teamID)) then
    .ok (updateFirstTeam teams teamID (fun t =>
      { t with members := t.members.filter (fun m => !(decide (m.userId = userID)))
               updatedAt := now }))
  else
    .error "member not found in team"

/-- `UserRepository.AddOrganizationToUser`: `$addToSet organizationIds`. -/
def addOrganizationToUser (users : List User) (userId orgId : String) (now : Nat) :
    List User :=
  updateFirstUser users userId (fun u =>
    { u with
        organizationIds :=
          if u.organizationIds.any (fun x => decide (x = orgId)) then u.organizationIds
          else u.organizationIds ++ [orgId]
        updatedAt := now })

/-- `UserRepository.RemoveOrganizationFromUser`: `$pull organizationIds`. -/
def removeOrganizationFromUser (users : List User) (userId orgId : String) (now : Nat) :
    List User :=
  updateFirstUser users userId (fun u =>
    { u with organizationIds := u.organizationIds.filter (fun x => !(decide (x = orgId)))
             updatedAt := now })

/-- `UserRepository.AddTeamToUser`: `$addToSet teamIds`. -/
def addTeamToUser (users : List User) (userId teamId : String) (now : Nat) : List User :=
  updateFirstUser users userId (fun u =>
    { u with
        teamIds :=
          if u.teamIds.any (fun x => decide (x = teamId)) then u.teamIds
          else u.teamIds ++ [teamId]
        updatedAt := now })

/-- `UserRepository.RemoveTeamFromUser`: `$pull teamIds`. -/
def removeTeamFromUser (users : List User) (userId teamId : String) (now : Nat) : List User :=
  updateFirstUser users userId (fun u =>
    { u with teamIds := u.teamIds.filter (fun x => !(decide (x = teamId)))
             updatedAt := now })

/-- The backing aggregate store: one Mongo collection per aggregate type. -/
structure Store where
  users : List User
  orgs : List Organization
  teams : List Team
deriving DecidableEq

/-- Result of a service-facade operation: the error returned to the caller
(`none` on success, otherwise the Go error string) together with the store
after the operation. -/
structure OpResult where
  err : Option String
  store : Store
deriving DecidableEq

/-- `OrganizationRepository.GetByID` over the embedded store. -/
def findOrg (orgs : List Organization) (id : String) : Option Organization :=
  orgs.find? (fun o => decide (o.id = id))

/-- `TeamRepository.GetByID` over the embedded store. -/
def findTeam (teams : List Team) (id : String) : Option Team :=
  teams.find? (fun t => decide (t.id = id))

/-- `UserRepository.GetByUserId` / `GetByUserID` over the embedded store. -/
def findUser (users : List User) (userId : String) : Option User :=
  users.find? (fun u => decide (u.userId = userId))

/-- `OrganizationService.AddOrganizationMember` (`organization.service.go`,
ll. 237-329): load the organization, require the inviter to hold Owner or
Admin, require the user aggregate to exist, write the membership entry via the
repository insert-or-update, then best-effort add the reverse reference
(skipped when the `reverseFails` oracle reports a failure — the Go code logs
and continues).  The trailing re-read and the goroutine publication do not
change the store. -/
def addOrganizationMember (st : Store) (orgID reqUserID : String)
    (reqRole : OrganizationMemberRole) (invitedBy : String) (now : Nat)
    (reverseFails : Bool) : OpResult :=
  match findOrg st.orgs orgID with
  | none => ⟨some "organization not found", st⟩
  | some org =>
    if !(org.hasRole invitedBy [OrganizationMemberRole.owner, OrganizationMemberRole.admin]) then
      ⟨some "insufficient permissions to add organization member", st⟩
    else
      match findUser st.users reqUserID with
      | none => ⟨some "user not found", st⟩
      | some _ =>
        let orgs1 := orgRepoAddMember st.orgs orgID reqUserID reqRole invitedBy now
        let users1 :=
          if reverseFails then st.users
          else addOrganizationToUser st.users reqUserID orgID now
        ⟨none, { st with orgs := orgs1, users := users1 }⟩

/-- `OrganizationService.UpdateOrganizationMember` (`organization.service.go`,
ll. 332-411): require Owner/Admin; demoting a current Owner requires Owner;
self-demotion away from Owner is denied when the actor is the only Owner; the
write itself is the repository insert-or-update (`AddMember` with
`invitedBy := updatedBy`).  In the Go code `currentMember.Role` is read behind
the short-circuiting `memberID == updatedBy`, which guarantees
`currentMember != nil` there (the actor passed the `HasRole` check); the
embedding totalizes the unreachable nil case with `getD false`. -/
def updateOrganizationMember (st : Store) (orgID memberID : String)
    (reqRole : OrganizationMemberRole) (updatedBy : String) (now : Nat) : OpResult :=
  match findOrg st.orgs orgID with
  | none => ⟨some "organization not found", st⟩
  | some org =>
    if !(org.hasRole updatedBy [OrganizationMemberRole.owner, OrganizationMemberRole.admin]) then
      ⟨some "insufficient permissions to update organization member", st⟩
    else
      let currentMember := org.getMember memberID
      if (match currentMember with
          | some m => decide (m.role = OrganizationMemberRole.owner) &&
              !(org.hasRole updatedBy [OrganizationMemberRole.owner])
          | none => false) then
        ⟨some "only an organization owner can change the role of another owner", st⟩
      else
        if decide (memberID = updatedBy) &&
            ((currentMember.map (fun m => decide (m.role = OrganizationMemberRole.owner))).getD
              false) &&
            !(decide (reqRole = OrganizationMemberRole.owner)) &&
            decide (countOrgOwners org ≤ 1) then
          ⟨some "cannot change role: organization must have at least one owner", st⟩
        else
          ⟨none, { st with orgs := orgRepoAddMember st.orgs orgID memberID reqRole updatedBy now }⟩

/-- `OrganizationService.RemoveOrganizationMember` (`organization.service.go`,
ll. 414-496): the target must be a member; the permission check denies the call
when the actor is neither an Owner nor the target and the target is an Owner,
or an Admin while the actor is not an Admin; removing the last Owner is then
denied; finally the authoritative `$pull` and the best-effort reverse-reference
removal. -/
def removeOrganizationMember (st : Store) (orgID memberID removedBy : String)
    (now : Nat) (reverseFails : Bool) : OpResult :=
  match findOrg st.orgs orgID with
  | none => ⟨some "organization not found", st⟩
  | some org =>
    match org.getMember memberID with
    | none => ⟨some "member not found in organization", st⟩
    | some memberToRemove =>
      if !(org.hasRole removedBy [OrganizationMemberRole.owner]) &&
          !(decide (removedBy = memberID)) &&
          (decide (memberToRemove.role = OrganizationMemberRole.owner) ||
            (!(org.hasRole removedBy [OrganizationMemberRole.admin]) &&
              decide (memberToRemove.role = OrganizationMemberRole.admin))) then
        ⟨some "insufficient permissions to remove this organization member", st⟩
      else
        if decide (memberToRemove.role = OrganizationMemberRole.owner) &&
            decide (countOrgOwners org ≤ 1) then
          ⟨some "cannot remove the only organization owner", st⟩
        else
          match orgRepoRemoveMember st.orgs orgID memberID now with
          | .error e => ⟨some e, st⟩
          | .ok orgs1 =>
            let users1 :=
              if reverseFails then st.users
              else removeOrganizationFromUser st.users memberID orgID now
            ⟨none, { st with orgs := orgs1, users := users1 }⟩

/-- `OrganizationService.DeleteOrganization` (`organization.service.go`,
ll. 174-234): require Owner; best-effort delete every child team record
(a failed team deletion — `teamDeleteFails` — is logged and skipped); delete
the organization; best-effort remove the organization id from each member's
`organizationIds` (a failed removal — `reverseFails` — is logged and skipped).
Note that the Go code never touches the members' `teamIds`. -/
def deleteOrganization (st : Store) (id userID : String) (now : Nat)
    (teamDeleteFails : String → Bool) (reverseFails : String → Bool) : OpResult :=
  match findOrg st.orgs id with
  | none => ⟨some "organization not found", st⟩
  | some org =>
    if !(org.hasRole userID [OrganizationMemberRole.owner]) then
      ⟨some "insufficient permissions to delete organization", st⟩
    else
      let teams1 := org.teamIds.foldl
        (fun ts tid => if teamDeleteFails tid then ts else removeFirstTeam ts tid) st.teams
      let orgs1 := removeFirstOrg st.orgs id
      let users1 := org.members.foldl
        (fun us m =>
          if reverseFails m.userId then us
          else removeOrganizationFromUser us m.userId id now) st.users
      ⟨none, ⟨users1, orgs1, teams1⟩⟩

/-- `TeamService.AddTeamMember` (`team.service.go`, ll. 268-369): load the
team, require the inviter to hold Owner or Admin, require the user aggregate
to exist, require the parent organization to exist (the raw Mongo not-found
error is propagated unwrapped there) and the target to be one of its members,
write the membership entry, then best-effort add the reverse reference. -/
def addTeamMember (st : Store) (teamID reqUserID : String) (reqRole : TeamMemberRole)
    (invitedBy : String) (now : Nat) (reverseFails : Bool) : OpResult :=
  match findTeam st.teams teamID with
  | none => ⟨some "team not found", st⟩
  | some team =>
    if !(team.hasRole invitedBy [TeamMemberRole.owner, TeamMemberRole.admin]) then
      ⟨some "insufficient permissions to add team member", st⟩
    else
      match findUser st.users reqUserID with
      | none => ⟨some "user not found", st⟩
      | some _ =>
        match findOrg st.orgs team.organizationId with
        | none => ⟨some "mongo: no documents in result", st⟩
        | some org =>
          if !(org.isMember reqUserID) then
            ⟨some "user is not a member of the organization", st⟩
          else
            let teams1 := teamRepoAddMember st.teams teamID reqUserID reqRole invitedBy now
            let users1 :=
              if reverseFails then st.users
              else addTeamToUser st.users reqUserID teamID now
            ⟨none, { st with teams := teams1, users := users1 }⟩

/-- `TeamService.UpdateTeamMember` (`team.service.go`, ll. 372-451): same shape
as the organization variant, over the 4-level team role set. -/
def updateTeamMember (st : Store) (teamID memberID : String) (reqRole : TeamMemberRole)
    (updatedBy : String) (now : Nat) : OpResult :=
  match findTeam st.teams teamID with
  | none => ⟨some "team not found", st⟩
  | some team =>
    if !(team.hasRole updatedBy [TeamMemberRole.owner, TeamMemberRole.admin]) then
      ⟨some "insufficient permissions to update team member", st⟩
    else
      let currentMember := team.getMember memberID
      if (match currentMember with
          | some m => decide (m.role = TeamMemberRole.owner) &&
              !(team.hasRole updatedBy [TeamMemberRole.owner])
          | none => false) then
        ⟨some "only a team owner can change the role of another owner", st⟩
      else
        if decide (memberID = updatedBy) &&
            ((currentMember.map (fun m => decide (m.role = TeamMemberRole.owner))).getD false) &&
            !(decide (reqRole = TeamMemberRole.owner)) &&
            decide (countTeamOwners team ≤ 1) then
          ⟨some "cannot change role: team must have at least one owner", st⟩
        else
          ⟨none, { st with teams := teamRepoAddMember st.teams teamID memberID reqRole updatedBy now }⟩

/-- `TeamService.RemoveTeamMember` (`team.service.go`, ll. 454-536): same shape
as the organization variant. -/
def removeTeamMember (st : Store) (teamID memberID removedBy : String) (now : Nat)
    (reverseFails : Bool) : OpResult :=
  match findTeam st.teams teamID with
  | none => ⟨some "team not found", st⟩
  | some team =>
    match team.getMember memberID with
    | none => ⟨some "member not found in team", st⟩
    | some memberToRemove =>
      if !(team.hasRole removedBy [TeamMemberRole.owner]) &&
          !(decide (removedBy = memberID)) &&
          (decide (memberToRemove.role = TeamMemberRole.owner) ||
            (!(team.hasRole removedBy [TeamMemberRole.admin]) &&
              decide (memberToRemove.role = TeamMemberRole.admin))) then
        ⟨some "insufficient permissions to remove this team member", st⟩
      else
        if decide (memberToRemove.role = TeamMemberRole.owner) &&
            decide (countTeamOwners team ≤ 1) then
          ⟨some "cannot remove the only team owner", st⟩
        else
          match teamRepoRemoveMember st.teams teamID memberID now with
          | .error e => ⟨some e, st⟩
          | .ok teams1 =>
            let users1 :=
              if reverseFails then st.users
              else removeTeamFromUser st.users memberID teamID now
            ⟨none, { st with teams := teams1, users := users1 }⟩

/-- The pagination prologue shared verbatim by `UserService.GetUsers`,
`TeamService.GetTeamsByOrganization`, `TeamService.GetTeamsByUser`,
`OrganizationService.ListOrganizations` and
`OrganizationService.GetOrganizationsByUser`:
`if page < 1 { page = 1 }; if limit < 1 || limit > 100 { limit = 20 }`. -/
def validatePagination (page limit : Int) : Int × Int :=
  (if page < 1 then 1 else page,
   if limit < 1 ∨ limit > 100 then 20 else limit)

/-- `models.CreateUserRequest`. -/
structure CreateUserRequest where
  userId : String
  email : String
  firstName : String
  lastName : String
  role : UserRole
deriving DecidableEq

/-- `models.NewUser`: fresh user with Active status and default preferences
(preferences carry no claim-relevant state and are omitted). -/
def newUser (req : CreateUserRequest) (now : Nat) : User :=
  { userId := req.userId
    email := req.email
    firstName := req.firstName
    lastName := req.lastName
    role := req.role
    status := UserStatus.active
    organizationIds := []
    teamIds := []
    updatedAt := now }

/-- `UserRepository.Create`: reject a duplicate `userId`, then a duplicate
`email`, then insert. -/
def userRepoCreate (users : List User) (u : User) : Except String (List User) :=
  if users.any (fun x => decide (x.userId = u.userId)) then
    .error "user with this userId already exists"
  else if users.any (fun x => decide (x.email = u.email)) then
    .error "user with this email already exists"
  else
    .ok (users ++ [u])

/-- `UserService.CreateUser`: build the aggregate, persist it, publish the
event (no store effect). -/
def createUser (st : Store) (req : CreateUserRequest) (now : Nat) : OpResult :=
  match userRepoCreate st.users (newUser req now) with
  | .error e => ⟨some e, st⟩
  | .ok users1 => ⟨none, { st with users := users1 }⟩

/-- The decoded payload of an inbound auth `user.created` event: `data[k]`
type-asserted to a string; a missing key (or a non-string value) yields the
empty string in the Go code and is embedded as `none`. -/
structure AuthUserCreatedData where
  id : Option String
  email : Option String
  firstName : Option String
  lastName : Option String
  role : Option String
deriving DecidableEq

/-- The role `switch` of `ProcessAuthUserCreated`. -/
def parseAuthRole (roleStr : String) : UserRole :=
  if roleStr = "admin" then UserRole.admin
  else if roleStr = "presenter" then UserRole.presenter
  else UserRole.user

/-- `UserService.ProcessAuthUserCreated` (`user.service.go`, ll. 852-923):
reject a payload missing any required field; if a user with the event's
`userId` already exists, succeed without writing; otherwise create the user. -/
def processAuthUserCreated (st : Store) (d : AuthUserCreatedData) (now : Nat) : OpResult :=
  let userId := d.id.getD ""
  let email := d.email.getD ""
  let firstName := d.firstName.getD ""
  let lastName := d.lastName.getD ""
  let roleStr := d.role.getD ""
  if userId = "" ∨ email = "" ∨ firstName = "" ∨ lastName = "" then
    ⟨some "missing required fields", st⟩
  else
    match findUser st.users userId with
    | some _ => ⟨none, st⟩
    | none =>
      createUser st
        { userId := userId, email := email, firstName := firstName, lastName := lastName
          role := parseAuthRole roleStr } now

/-- `models.UpdateOrganizationRequest`, restricted to the `name` field: the
other `Apply` fields (description, logoUrl, website, industry, size,
location, settings) are profile state that no claim and no control flow
depends on; `name` is kept because the repository's natural-key conflict
check reads it. -/
structure UpdateOrganizationRequest where
  name : Option String
deriving DecidableEq

/-- `Organization.Apply` (`organization.model.go`): advance `updatedAt` and
overwrite the fields the request carries. -/
def Organization.apply (o : Organization) (req : UpdateOrganizationRequest)
    (now : Nat) : Organization :=
  { o with
      name := match req.name with | some n => n | none => o.name
      updatedAt := now }

/-- `OrganizationRepository.GetByName`. -/
def findOrgByName (orgs : List Organization) (name : String) : Option Organization :=
  orgs.find? (fun o => decide (o.name = name))

/-- `OrganizationRepository.Update`: reject when a different organization
already holds the (natural-key unique) name, then `UpdateOne` on `_id`
replacing the aggregate's fields and advancing `updatedAt`.  The conflict
check precedes the write. -/
def orgRepoUpdate (orgs : List Organization) (org : Organization) (now : Nat) :
    Except String (List Organization) :=
  match findOrgByName orgs org.name with
  | some existing =>
    if existing.id ≠ org.id then
      .error "another organization with this name already exists"
    else
      .ok (updateFirstOrg orgs org.id (fun x =>
        { x with name := org.name, members := org.members, updatedAt := now }))
  | none =>
    .ok (updateFirstOrg orgs org.id (fun x =>
      { x with name := org.name, members := org.members, updatedAt := now }))

/-- `OrganizationService.UpdateOrganization` (`organization.service.go`,
ll. 129-171): load the organization, require Owner or Admin, apply the
request in memory and persist it via the repository (whose name-conflict
check precedes the write); the goroutine publication has no store effect. -/
def updateOrganization (st : Store) (id : String) (req : UpdateOrganizationRequest)
    (userID : String) (now : Nat) : OpResult :=
  match findOrg st.orgs id with
  | none => ⟨some "organization not found", st⟩
  | some org =>
    if !(org.hasRole userID [OrganizationMemberRole.owner, OrganizationMemberRole.admin]) then
      ⟨some "insufficient permissions to update organization", st⟩
    else
      match orgRepoUpdate st.orgs (org.apply req now) now with
      | .error e => ⟨some e, st⟩
      | .ok orgs1 => ⟨none, { st with orgs := orgs1 }⟩

/-- `models.UpdateTeamRequest`, restricted to the `name` field (same
convention as `UpdateOrganizationRequest`). -/
structure UpdateTeamRequest where
  name : Option String
deriving DecidableEq

/-- `Team.Apply` (`team.model.go`). -/
def Team.apply (t : Team) (req : UpdateTeamRequest) (now : Nat) : Team :=
  { t with
      name := match req.name with | some n => n | none => t.name
      updatedAt := now }

/-- `TeamRepository.GetByNameAndOrganization`. -/
def findTeamByNameAndOrg (teams : List Team) (name organizationId : String) : Option Team :=
  teams.find? (fun t => decide (t.name = name) && decide (t.organizationId = organizationId))

/-- `TeamRepository.Update`: reject when a different team of the same
organization already holds the name, then `UpdateOne` on `_id`. -/
def teamRepoUpdate (teams : List Team) (team : Team) (now : Nat) :
    Except String (List Team) :=
  match findTeamByNameAndOrg teams team.name team.organizationId with
  | some existing =>
    if existing.id ≠ team.id then
      .error "another team with this name already exists in the organization"
    else
      .ok (updateFirstTeam teams team.id (fun x =>
        { x with name := team.name, members := team.members, updatedAt := now }))
  | none =>
    .ok (updateFirstTeam teams team.id (fun x =>
      { x with name := team.name, members := team.members, updatedAt := now }))

/-- `TeamService.UpdateTeam` (`team.service.go`, ll. 162-203). -/
def updateTeam (st : Store) (id : String) (req : UpdateTeamRequest)
    (userID : String) (now : Nat) : OpResult :=
  match findTeam st.teams id with
  | none => ⟨some "team not found", st⟩
  | some team =>
    if !(team.hasRole userID [TeamMemberRole.owner, TeamMemberRole.admin]) then
      ⟨some "insufficient permissions to update team", st⟩
    else
      match teamRepoUpdate st.teams (team.apply req now) now with
      | .error e => ⟨some e, st⟩
      | .ok teams1 => ⟨none, { st with teams := teams1 }⟩

/-- `OrganizationRepository.RemoveTeam`: `$pull teamIds` plus
`$set updatedAt`; as with `RemoveMember`, `ModifiedCount` is zero exactly
when no document matched the `_id` filter, so the not-found error fires only
when the organization itself is absent. -/
def orgRepoRemoveTeam (orgs : List Organization) (orgID teamID : String) (now : Nat) :
    Except String (List Organization) :=
  if orgs.any (fun o => decide (o.id = orgID)) then
    .ok (updateFirstOrg orgs orgID (fun o =>
      { o with teamIds := o.teamIds.filter (fun x => !(decide (x = teamID)))
               updatedAt := now }))
  else
    .error "team not found in organization"

/-- `TeamService.DeleteTeam` (`team.service.go`, ll. 206-265): require Owner;
delete the team record (authoritative); best-effort remove the team id from
the parent organization's `teamIds` (a store failure — the `orgRemoveFails`
oracle — or the repository's own not-found error is logged and skipped);
best-effort remove the team id from each former member's `teamIds`. -/
def deleteTeam (st : Store) (id userID : String) (now : Nat)
    (orgRemoveFails : Bool) (reverseFails : String → Bool) : OpResult :=
  match findTeam st.teams id with
  | none => ⟨some "team not found", st⟩
  | some team =>
    if !(team.hasRole userID [TeamMemberRole.owner]) then
      ⟨some "insufficient permissions to delete team", st⟩
    else
      let teams1 := removeFirstTeam st.teams id
      let orgs1 :=
        if orgRemoveFails then st.orgs
        else
          match orgRepoRemoveTeam st.orgs team.organizationId id now with
          | .error _ => st.orgs
          | .ok l => l
      let users1 := team.members.foldl
        (fun us m =>
          if reverseFails m.userId then us else removeTeamFromUser us m.userId id now)
        st.users
      ⟨none, ⟨users1, orgs1, teams1⟩⟩

/-- `OrganizationService.GetOrganizationTeams` (`organization.service.go`,
ll. 498-517): verify the organization exists and the caller is one of its
members, then hand `page`/`limit` to `TeamRepository.GetTeamsByOrganization`
UNVALIDATED — unlike the other facade list queries this one has no
pagination prologue.  The embedding returns the page/limit pair the
repository receives (it uses them directly as its skip/limit parameters). -/
def getOrganizationTeams (st : Store) (orgID : String) (page limit : Int)
    (userID : String) : Except String (Int × Int) :=
  match findOrg st.orgs orgID with
  | none => .error "organization not found"
  | some org =>
    if !(org.isMember userID) then
      .error "user is not a member of the organization"
    else
      .ok (page, limit)

/-! ### Concrete aggregates used by the per-claim evaluations below -/

/-- A minimal user aggregate (claim C1 trace). -/
def c1Alice : User :=
  ⟨"alice", "alice@example.com", "Alice", "L", UserRole.user, UserStatus.active, [], [], 0⟩

/-- A minimal user aggregate (claim C1 trace). -/
def c1Bob : User :=
  ⟨"bob", "bob@example.com", "Bob", "L", UserRole.user, UserStatus.active, [], [], 0⟩

/-- Claim C1 trace, step 0: the store right after `alice` created organization
`o1` (she is its sole Owner, exactly as `NewOrganization` builds it). -/
def c1Store0 : Store := ⟨[c1Alice, c1Bob], [newOrganization "o1" "Org One" "alice" 0], []⟩

/-- Claim C1 trace, step 1: `alice` (an Owner) adds `bob` as Admin — accepted. -/
def c1Step1 : OpResult :=
  addOrganizationMember c1Store0 "o1" "bob" OrganizationMemberRole.admin "alice" 1 false

/-- Claim C1 trace, step 2: `bob` (an Admin) "adds" the sole Owner `alice`
with role Member; the repository insert-or-update turns this into a role
change. -/
def c1Step2 : OpResult :=
  addOrganizationMember c1Step1.store "o1" "alice" OrganizationMemberRole.member "bob" 2 false

/-- Claim C1: the owner invariant is NOT preserved by the service facade.
Starting from a freshly created organization whose sole Owner is `alice`,
the accepted call sequence  (1) `alice` adds `bob` as Admin,
(2) `bob` calls AddOrganizationMember for `alice` with role Member  ends with
an organization that has no member with role Owner: `AddOrganizationMember`
performs no owner guard and the repository updates an existing member's role
in place.  Both calls return success. -/
theorem c1_accepted_add_member_leaves_no_owner :
    c1Store0.orgs.map countOrgOwners = [1] ∧
    c1Step1.err = none ∧ c1Step2.err = none ∧
    c1Step2.store.orgs.map countOrgOwners = [0] := by decide

/-- Store for the claim C9 counterexample: organization `o1` with the single
member `alice`. -/
def c9Store : Store :=
  ⟨[], [⟨"o1", "Org One", [⟨"alice", OrganizationMemberRole.owner, 0, ""⟩], [], 0⟩], []⟩

/-- Claim C9 counterexample: `GetOrganizationTeams` is a facade
list-teams-by-organization query, yet it forwards the raw out-of-range
inputs `page = 0`, `limit = 1000` to the repository unchanged — the
effective page is not at least 1 and the effective limit is not within
[1, 100], refuting the claim's "every list/search query on the service
facade". -/
theorem c9_counterexample_get_organization_teams_unclamped :
    getOrganizationTeams c9Store "o1" 0 1000 "alice" = Except.ok (0, 1000) ∧
    ¬(1 ≤ (0 : Int)) ∧ ¬((1000 : Int) ≤ 100) :=
  ⟨rfl, by decide, by decide⟩

/-- Claim C9, amended: the five facade list/search queries that run the
shared validation prologue (`GetUsers`, `ListOrganizations`,
`GetOrganizationsByUser`, `GetTeamsByOrganization`, `GetTeamsByUser`) use an
effective page of at least 1 (inputs below 1 become exactly 1, others are
kept) and an effective limit inside [1, 100] (out-of-range limits become the
default 20); but `GetOrganizationTeams` has no such prologue and passes
`page`/`limit` through to the repository unvalidated. -/
theorem c9_amended_pagination_bounds :
    (∀ page limit : Int,
        1 ≤ (validatePagination page limit).1 ∧
        (page < 1 → (validatePagination page limit).1 = 1) ∧
        (1 ≤ page → (validatePagination page limit).1 = page) ∧
        1 ≤ (validatePagination page limit).2 ∧
        (validatePagination page limit).2 ≤ 100 ∧
        ((limit < 1 ∨ limit > 100) → (validatePagination page limit).2 = 20)) ∧
    (∀ st orgID page limit userID org,
        findOrg st.orgs orgID = some org →
        org.isMember userID = true →
        getOrganizationTeams st orgID page limit userID = Except.ok (page, limit)) := by
  constructor
  · intro page limit
    simp only [validatePagination]
    refine ⟨?_, fun h => ?_, fun h => ?_, ?_, ?_, fun h => ?_⟩ <;> split_ifs <;> omega
  · intro st orgID page limit userID org hfind hmem
    simp [getOrganizationTeams, hfind, hmem]

/-- Claim C9 witness: the prologue bounds evaluated at the out-of-range
inputs `page = -5`, `limit = 1000`, and the unvalidated pass-through of
`GetOrganizationTeams` at the same out-of-range limit. -/
theorem c9_witness_concrete :
    (validatePagination (-5) 1000).1 = 1 ∧
    (validatePagination (-5) 1000).2 = 20 ∧
    (validatePagination 7 50).1 = 7 ∧
    getOrganizationTeams c9Store "o1" (-5) 1000 "alice" = Except.ok (-5, 1000) := by
  exact ⟨(c9_amended_pagination_bounds.1 (-5) 1000).2.1 (by decide),
    (c9_amended_pagination_bounds.1 (-5) 1000).2.2.2.2.2 (by decide),
    (c9_amended_pagination_bounds.1 7 50).2.2.1 (by decide),
    c9_amended_pagination_bounds.2 c9Store "o1" (-5) 1000 "alice"
      ⟨"o1", "Org One", [⟨"alice", OrganizationMemberRole.owner, 0, ""⟩], [], 0⟩
      (by decide) (by decide)⟩

/-- Claim C7: (i) every facade mutation — add/update/remove member, update
group, delete group, for both Organizations and Teams — either succeeds or
leaves the store exactly as it was: all permission/invariant/validation (and
name-conflict) rejections happen before any write; (ii) for the mutations
that perform best-effort writes after the authoritative group write (the
member mutations' reverse-reference step, and the organization-reference and
reverse-reference steps of the group deletions), a failure of those
best-effort steps changes neither the returned error nor the authoritative
group collection. -/
theorem c7_error_atomicity_and_best_effort :
    (∀ st orgID reqUserID reqRole invitedBy now rf,
        (addOrganizationMember st orgID reqUserID reqRole invitedBy now rf).err = none ∨
        (addOrganizationMember st orgID reqUserID reqRole invitedBy now rf).store = st) ∧
    (∀ st orgID memberID reqRole updatedBy now,
        (updateOrganizationMember st orgID memberID reqRole updatedBy now).err = none ∨
        (updateOrganizationMember st orgID memberID reqRole updatedBy now).store = st) ∧
    (∀ st orgID memberID removedBy now rf,
        (removeOrganizationMember st orgID memberID removedBy now rf).err = none ∨
        (removeOrganizationMember st orgID memberID removedBy now rf).store = st) ∧
    (∀ st id userID now tdf rvf,
        (deleteOrganization st id userID now tdf rvf).err = none ∨
        (deleteOrganization st id userID now tdf rvf).store = st) ∧
    (∀ st teamID reqUserID reqRole invitedBy now rf,
        (addTeamMember st teamID reqUserID reqRole invitedBy now rf).err = none ∨
        (addTeamMember st teamID reqUserID reqRole invitedBy now rf).store = st) ∧
    (∀ st teamID memberID reqRole updatedBy now,
        (updateTeamMember st teamID memberID reqRole updatedBy now).err = none ∨
        (updateTeamMember st teamID memberID reqRole updatedBy now).store = st) ∧
    (∀ st teamID memberID removedBy now rf,
        (removeTeamMember st teamID memberID removedBy now rf).err = none ∨
        (removeTeamMember st teamID memberID removedBy now rf).store = st) ∧
    (∀ st orgID reqUserID reqRole invitedBy now,
        (addOrganizationMember st orgID reqUserID reqRole invitedBy now true).err =
          (addOrganizationMember st orgID reqUserID reqRole invitedBy now false).err ∧
        (addOrganizationMember st orgID reqUserID reqRole invitedBy now true).store.orgs =
          (addOrganizationMember st orgID reqUserID reqRole invitedBy now false).store.orgs) ∧
    (∀ st orgID memberID removedBy now,
        (removeOrganizationMember st orgID memberID removedBy now true).err =
          (removeOrganizationMember st orgID memberID removedBy now false).err ∧
        (removeOrganizationMember st orgID memberID removedBy now true).store.orgs =
          (removeOrganizationMember st orgID memberID removedBy now false).store.orgs) ∧
    (∀ st teamID reqUserID reqRole invitedBy now,
        (addTeamMember st teamID reqUserID reqRole invitedBy now true).err =
          (addTeamMember st teamID reqUserID reqRole invitedBy now false).err ∧
        (addTeamMember st teamID reqUserID reqRole invitedBy now true).store.teams =
          (addTeamMember st teamID reqUserID reqRole invitedBy now false).store.teams) ∧
    (∀ st teamID memberID removedBy now,
        (removeTeamMember st teamID memberID removedBy now true).err =
          (removeTeamMember st teamID memberID removedBy now false).err ∧
        (removeTeamMember st teamID memberID removedBy now true).store.teams =
          (removeTeamMember st teamID memberID removedBy now false).store.teams) ∧
    (∀ st id req userID now,
        (updateOrganization st id req userID now).err = none ∨
        (updateOrganization st id req userID now).store = st) ∧
    (∀ st id req userID now,
        (updateTeam st id req userID now).err = none ∨
        (updateTeam st id req userID now).store = st) ∧
    (∀ st id userID now orf rvf,
        (deleteTeam st id userID now orf rvf).err = none ∨
        (deleteTeam st id userID now orf rvf).store = st) ∧
    (∀ st id userID now orf1 rvf1 orf2 rvf2,
        (deleteTeam st id userID now orf1 rvf1).err =
          (deleteTeam st id userID now orf2 rvf2).err ∧
        (deleteTeam st id userID now orf1 rvf1).store.teams =
          (deleteTeam st id userID now orf2 rvf2).store.teams) ∧
    (∀ st oid userID now tdf1 rvf1 tdf2 rvf2,
        (deleteOrganization st oid userID now tdf1 rvf1).err =
          (deleteOrganization st oid userID now tdf2 rvf2).err ∧
        (deleteOrganization st oid userID now tdf1 rvf1).store.orgs =
          (deleteOrganization st oid userID now tdf2 rvf2).store.orgs) := by
  refine ⟨?_, ?_, ?_, ?_, ?_, ?_, ?_, ?_, ?_, ?_, ?_, ?_, ?_, ?_, ?_, ?_⟩
  · intro st orgID reqUserID reqRole invitedBy now rf
    unfold addOrganizationMember
    repeat' split
    all_goals first | (left; rfl) | (right; rfl)
  · intro st orgID memberID reqRole updatedBy now
    unfold updateOrganizationMember
    repeat' first | dsimp only | split
    all_goals first | (left; rfl) | (right; rfl)
  · intro st orgID memberID removedBy now rf
    unfold removeOrganizationMember
    repeat' split
    all_goals first | (left; rfl) | (right; rfl)
  · intro st id userID now tdf rvf
    unfold deleteOrganization
    repeat' split
    all_goals first | (left; rfl) | (right; rfl)
  · intro st teamID reqUserID reqRole invitedBy now rf
    unfold addTeamMember
    repeat' split
    all_goals first | (left; rfl) | (right; rfl)
  · intro st teamID memberID reqRole updatedBy now
    unfold updateTeamMember
    repeat' first | dsimp only | split
    all_goals first | (left; rfl) | (right; rfl)
  · intro st teamID memberID removedBy now rf
    unfold removeTeamMember
    repeat' split
    all_goals first | (left; rfl) | (right; rfl)
  · intro st orgID reqUserID reqRole invitedBy now
    unfold addOrganizationMember
    repeat' split
    all_goals (try constructor) <;> rfl
  · intro st orgID memberID removedBy now
    unfold removeOrganizationMember
    repeat' split
    all_goals (try constructor) <;> rfl
  · intro st teamID reqUserID reqRole invitedBy now
    unfold addTeamMember
    repeat' split
    all_goals (try constructor) <;> rfl
  · intro st teamID memberID removedBy now
    unfold removeTeamMember
    repeat' split
    all_goals (try constructor) <;> rfl
  · intro st id req userID now
    unfold updateOrganization
    repeat' split
    all_goals first | (left; rfl) | (right; rfl)
  · intro st id req userID now
    unfold updateTeam
    repeat' split
    all_goals first | (left; rfl) | (right; rfl)
  · intro st id userID now orf rvf
    unfold deleteTeam
    repeat' first | dsimp only | split
    all_goals first | (left; rfl) | (right; rfl)
  · intro st id userID now orf1 rvf1 orf2 rvf2
    unfold deleteTeam
    repeat' first | dsimp only | split
    all_goals (try constructor) <;> rfl
  · intro st oid userID now tdf1 rvf1 tdf2 rvf2
    unfold deleteOrganization
    repeat' first | dsimp only | split
    all_goals (try constructor) <;> rfl

/-- Organization used by the claim C3 counterexample: `alice` is the Owner,
`bob` and `carol` are plain Members. -/
def c3Org : Organization :=
  ⟨"o1", "Org One",
   [⟨"alice", OrganizationMemberRole.owner, 0, ""⟩,
    ⟨"bob", OrganizationMemberRole.member, 1, "alice"⟩,
    ⟨"carol", OrganizationMemberRole.member, 2, "alice"⟩],
   [], 2⟩

/-- Team used by the claim C3 witness: same membership as `c3Org`. -/
def c3TeamX : Team :=
  ⟨"t1", "Team One", "o1",
   [⟨"alice", TeamMemberRole.owner, 0, ""⟩,
    ⟨"bob", TeamMemberRole.member, 1, "alice"⟩,
    ⟨"carol", TeamMemberRole.member, 2, "alice"⟩],
   2⟩

/-- Store for the claim C3 counterexample. -/
def c3Store : Store :=
  ⟨[⟨"alice", "alice@example.com", "Alice", "L", UserRole.user, UserStatus.active, ["o1"], [], 0⟩,
    ⟨"bob", "bob@example.com", "Bob", "L", UserRole.user, UserStatus.active, ["o1"], [], 0⟩,
    ⟨"carol", "carol@example.com", "Carol", "L", UserRole.user, UserStatus.active, ["o1"], [], 0⟩],
   [c3Org], [c3TeamX]⟩

/-- Claim C3 counterexample: `bob` holds neither Owner nor Admin in `o1`, is
not the target, and yet his RemoveOrganizationMember call against the plain
Member `carol` is accepted (it returns no error and removes her) — the claim
says every such call is denied with a permission error. -/
theorem c3_counterexample_plain_member_removal_accepted :
    c3Org.hasRole "bob" [OrganizationMemberRole.owner] = false ∧
    c3Org.hasRole "bob" [OrganizationMemberRole.admin] = false ∧
    ¬("bob" = "carol") ∧
    (removeOrganizationMember c3Store "o1" "carol" "bob" 5 false).err = none ∧
    (removeOrganizationMember c3Store "o1" "carol" "bob" 5 false).store.orgs.map
      (fun o => o.members.map (fun m => m.userId)) = [["alice", "bob"]] := by decide

/-- User aggregate for the claim C5 counterexample: `alice` carries reverse
references to both the organization `o1` and its child team `t1`. -/
def c5Alice : User :=
  ⟨"alice", "alice@example.com", "Alice", "L", UserRole.user, UserStatus.active,
   ["o1"], ["t1"], 0⟩

/-- Store for the claim C5 counterexample: organization `o1` (sole Owner
`alice`) with one child team `t1` of which `alice` is also a member. -/
def c5Store : Store :=
  ⟨[c5Alice],
   [⟨"o1", "Org One", [⟨"alice", OrganizationMemberRole.owner, 0, ""⟩], ["t1"], 0⟩],
   [⟨"t1", "Team One", "o1", [⟨"alice", TeamMemberRole.owner, 0, ""⟩], 0⟩]⟩

/-- The claim C5 counterexample run: `alice` deletes `o1`; no best-effort
step fails. -/
def c5Run : OpResult :=
  deleteOrganization c5Store "o1" "alice" 7 (fun _ => false) (fun _ => false)

/-- Claim C5 counterexample: the deletion succeeds, the child team record and
the organization record are gone and the organization reference is removed
from `alice`, but — contrary to the claim — the deleted team's id `t1` is
still in `alice`'s `teamIds` reverse-reference set: `DeleteOrganization`
never calls `RemoveTeamFromUser`. -/
theorem c5_counterexample_team_refs_not_cleared :
    c5Run.err = none ∧
    c5Run.store.teams = [] ∧
    c5Run.store.orgs = [] ∧
    c5Run.store.users.map (fun u => u.organizationIds) = [[]] ∧
    c5Run.store.users.map (fun u => u.teamIds) = [["t1"]] := by decide

/-! ### Helper lemmas about the embedded list primitives -/

/-- A successful `find?` yields an element of the list satisfying the
predicate. -/
theorem any_eq_true_of_find?_some {α : Type} {p : α → Bool} {l : List α} {a : α}
    (h : l.find? p = some a) : l.any p = true :=
  List.any_eq_true.mpr ⟨a, List.mem_of_find?_eq_some h, List.find?_some h⟩

/-- A failed `find?` means no element satisfies the predicate. -/
theorem any_eq_false_of_find?_none {α : Type} {p : α → Bool} {l : List α}
    (h : l.find? p = none) : l.any p = false := by
  rw [Bool.eq_false_iff]
  intro hany
  obtain ⟨x, hx, hpx⟩ := List.any_eq_true.mp hany
  exact (List.find?_eq_none.mp h x hx) hpx

/-- `find?` skips a prefix in which nothing matches. -/
theorem find?_append_of_none {α : Type} (p : α → Bool) {l1 : List α} (l2 : List α)
    (h : l1.find? p = none) : (l1 ++ l2).find? p = l2.find? p := by
  induction l1 with
  | nil => rfl
  | cons a rest ih =>
    cases hpa : p a with
    | true => rw [List.find?_cons_of_pos _ hpa] at h; cases h
    | false =>
      rw [List.find?_cons_of_neg _ (by simp [hpa])] at h
      rw [List.cons_append, List.find?_cons_of_neg _ (by simp [hpa])]
      exact ih h

/-- A list whose `countP` is 1 has a unique element satisfying the predicate. -/
theorem countP_one_unique {α : Type} (p : α → Bool) {l : List α} (h : l.countP p = 1)
    {a b : α} (ha : a ∈ l) (hb : b ∈ l) (pa : p a = true) (pb : p b = true) : a = b := by
  rw [List.countP_eq_length_filter] at h
  obtain ⟨x, hx⟩ := List.length_eq_one.mp h
  have ha2 : a ∈ l.filter p := List.mem_filter.mpr ⟨ha, pa⟩
  have hb2 : b ∈ l.filter p := List.mem_filter.mpr ⟨hb, pb⟩
  rw [hx, List.mem_singleton] at ha2 hb2
  rw [ha2, hb2]

/-- `Organization.getMember` returns a member of the list carrying the looked
up `userId`. -/
theorem org_getMember_spec {o : Organization} {uid : String} {m : OrganizationMember}
    (h : o.getMember uid = some m) : m ∈ o.members ∧ m.userId = uid := by
  unfold Organization.getMember at h
  have h2 := List.find?_some h
  simp only [decide_eq_true_eq] at h2
  exact ⟨List.mem_of_find?_eq_some h, h2⟩

/-- `Team.getMember` returns a member of the list carrying the looked up
`userId`. -/
theorem team_getMember_spec {t : Team} {uid : String} {m : TeamMember}
    (h : t.getMember uid = some m) : m ∈ t.members ∧ m.userId = uid := by
  unfold Team.getMember at h
  have h2 := List.find?_some h
  simp only [decide_eq_true_eq] at h2
  exact ⟨List.mem_of_find?_eq_some h, h2⟩

/-- Holding the Owner role means being a member whose entry has role Owner. -/
theorem org_hasRole_owner_elim {o : Organization} {uid : String}
    (h : o.hasRole uid [OrganizationMemberRole.owner] = true) :
    ∃ m, o.getMember uid = some m ∧ m.role = OrganizationMemberRole.owner := by
  unfold Organization.hasRole at h
  cases hm : o.getMember uid with
  | none => rw [hm] at h; cases h
  | some m =>
    rw [hm] at h
    simp only [List.any_cons, List.any_nil, Bool.or_false, decide_eq_true_eq] at h
    exact ⟨m, rfl, h⟩

/-- Holding the Owner role means being a member whose entry has role Owner. -/
theorem team_hasRole_owner_elim {t : Team} {uid : String}
    (h : t.hasRole uid [TeamMemberRole.owner] = true) :
    ∃ m, t.getMember uid = some m ∧ m.role = TeamMemberRole.owner := by
  unfold Team.hasRole at h
  cases hm : t.getMember uid with
  | none => rw [hm] at h; cases h
  | some m =>
    rw [hm] at h
    simp only [List.any_cons, List.any_nil, Bool.or_false, decide_eq_true_eq] at h
    exact ⟨m, rfl, h⟩

/-- Claim C2: when a group's single Owner is the target, every removal call
and every role-change call away from Owner is rejected before any write, for
every actor (including that Owner), for both Organizations and Teams. -/
theorem c2_sole_owner_remove_and_demote_denied :
    (∀ st orgID memberID removedBy now rf org m,
        findOrg st.orgs orgID = some org →
        org.getMember memberID = some m →
        m.role = OrganizationMemberRole.owner →
        countOrgOwners org = 1 →
        (removeOrganizationMember st orgID memberID removedBy now rf).err.isSome = true ∧
        (removeOrganizationMember st orgID memberID removedBy now rf).store = st) ∧
    (∀ st orgID memberID reqRole updatedBy now org m,
        findOrg st.orgs orgID = some org →
        org.getMember memberID = some m →
        m.role = OrganizationMemberRole.owner →
        countOrgOwners org = 1 →
        reqRole ≠ OrganizationMemberRole.owner →
        (updateOrganizationMember st orgID memberID reqRole updatedBy now).err.isSome = true ∧
        (updateOrganizationMember st orgID memberID reqRole updatedBy now).store = st) ∧
    (∀ st teamID memberID removedBy now rf team m,
        findTeam st.teams teamID = some team →
        team.getMember memberID = some m →
        m.role = TeamMemberRole.owner →
        countTeamOwners team = 1 →
        (removeTeamMember st teamID memberID removedBy now rf).err.isSome = true ∧
        (removeTeamMember st teamID memberID removedBy now rf).store = st) ∧
    (∀ st teamID memberID reqRole updatedBy now team m,
        findTeam st.teams teamID = some team →
        team.getMember memberID = some m →
        m.role = TeamMemberRole.owner →
        countTeamOwners team = 1 →
        reqRole ≠ TeamMemberRole.owner →
        (updateTeamMember st teamID memberID reqRole updatedBy now).err.isSome = true ∧
        (updateTeamMember st teamID memberID reqRole updatedBy now).store = st) := by
  refine ⟨?_, ?_, ?_, ?_⟩
  · intro st orgID memberID removedBy now rf org m hfind hmem hrole hcount
    simp only [removeOrganizationMember, hfind, hmem]
    split
    · exact ⟨rfl, rfl⟩
    · split
      · exact ⟨rfl, rfl⟩
      · rename_i h2
        exfalso; apply h2
        simp [hrole, hcount]
  · intro st orgID memberID reqRole updatedBy now org m hfind hmem hrole hcount hreq
    simp only [updateOrganizationMember, hfind, hmem]
    split
    · exact ⟨rfl, rfl⟩
    · rename_i hA
      split
      · exact ⟨rfl, rfl⟩
      · rename_i hB
        have hOwnerActor : org.hasRole updatedBy [OrganizationMemberRole.owner] = true := by
          cases hOb : org.hasRole updatedBy [OrganizationMemberRole.owner] with
          | true => rfl
          | false => exfalso; apply hB; simp [hrole, hOb]
        obtain ⟨mu, hmu, hmurole⟩ := org_hasRole_owner_elim hOwnerActor
        have hma := org_getMember_spec hmem
        have hmua := org_getMember_spec hmu
        have heqm : mu = m :=
          countP_one_unique _ hcount hmua.1 hma.1 (by simp [hmurole]) (by simp [hrole])
        have hids : memberID = updatedBy := by rw [← hma.2, ← hmua.2, heqm]
        split
        · exact ⟨rfl, rfl⟩
        · rename_i hC
          exfalso; apply hC
          simp [hids, hrole, hreq, hcount]
  · intro st teamID memberID removedBy now rf team m hfind hmem hrole hcount
    simp only [removeTeamMember, hfind, hmem]
    split
    · exact ⟨rfl, rfl⟩
    · split
      · exact ⟨rfl, rfl⟩
      · rename_i h2
        exfalso; apply h2
        simp [hrole, hcount]
  · intro st teamID memberID reqRole updatedBy now team m hfind hmem hrole hcount hreq
    simp only [updateTeamMember, hfind, hmem]
    split
    · exact ⟨rfl, rfl⟩
    · rename_i hA
      split
      · exact ⟨rfl, rfl⟩
      · rename_i hB
        have hOwnerActor : team.hasRole updatedBy [TeamMemberRole.owner] = true := by
          cases hOb : team.hasRole updatedBy [TeamMemberRole.owner] with
          | true => rfl
          | false => exfalso; apply hB; simp [hrole, hOb]
        obtain ⟨mu, hmu, hmurole⟩ := team_hasRole_owner_elim hOwnerActor
        have hma := team_getMember_spec hmem
        have hmua := team_getMember_spec hmu
        have heqm : mu = m :=
          countP_one_unique _ hcount hmua.1 hma.1 (by simp [hmurole]) (by simp [hrole])
        have hids : memberID = updatedBy := by rw [← hma.2, ← hmua.2, heqm]
        split
        · exact ⟨rfl, rfl⟩
        · rename_i hC
          exfalso; apply hC
          simp [hids, hrole, hreq, hcount]

/-- Organization with a sole Owner `ann` for the claim C2 witness. -/
def c2Org : Organization := ⟨"o2", "Org Two", [⟨"ann", OrganizationMemberRole.owner, 0, ""⟩], [], 0⟩

/-- Team with a sole Owner `ann` for the claim C2 witness. -/
def c2Team : Team := ⟨"t2", "Team Two", "o2", [⟨"ann", TeamMemberRole.owner, 0, ""⟩], 0⟩

/-- Store for the claim C2 witness. -/
def c2Store : Store :=
  ⟨[⟨"ann", "ann@example.com", "Ann", "L", UserRole.user, UserStatus.active, ["o2"], ["t2"], 0⟩],
   [c2Org], [c2Team]⟩

/-- Claim C2 witness: the sole Owner `ann` can neither remove herself nor
demote herself to Member/Admin, in the organization or in the team. -/
theorem c2_witness_concrete :
    ((removeOrganizationMember c2Store "o2" "ann" "ann" 3 false).err.isSome = true ∧
      (removeOrganizationMember c2Store "o2" "ann" "ann" 3 false).store = c2Store) ∧
    ((updateOrganizationMember c2Store "o2" "ann" OrganizationMemberRole.member "ann" 3).err.isSome
        = true ∧
      (updateOrganizationMember c2Store "o2" "ann" OrganizationMemberRole.member "ann" 3).store
        = c2Store) ∧
    ((removeTeamMember c2Store "t2" "ann" "ann" 3 false).err.isSome = true ∧
      (removeTeamMember c2Store "t2" "ann" "ann" 3 false).store = c2Store) ∧
    ((updateTeamMember c2Store "t2" "ann" TeamMemberRole.viewer "ann" 3).err.isSome = true ∧
      (updateTeamMember c2Store "t2" "ann" TeamMemberRole.viewer "ann" 3).store = c2Store) := by
  refine ⟨?_, ?_, ?_, ?_⟩
  · exact c2_sole_owner_remove_and_demote_denied.1 c2Store "o2" "ann" "ann" 3 false c2Org
      ⟨"ann", OrganizationMemberRole.owner, 0, ""⟩ (by decide) (by decide) rfl (by decide)
  · exact c2_sole_owner_remove_and_demote_denied.2.1 c2Store "o2" "ann"
      OrganizationMemberRole.member "ann" 3 c2Org
      ⟨"ann", OrganizationMemberRole.owner, 0, ""⟩ (by decide) (by decide) rfl (by decide)
      (by decide)
  · exact c2_sole_owner_remove_and_demote_denied.2.2.1 c2Store "t2" "ann" "ann" 3 false c2Team
      ⟨"ann", TeamMemberRole.owner, 0, ""⟩ (by decide) (by decide) rfl (by decide)
  · exact c2_sole_owner_remove_and_demote_denied.2.2.2 c2Store "t2" "ann"
      TeamMemberRole.viewer "ann" 3 c2Team
      ⟨"ann", TeamMemberRole.owner, 0, ""⟩ (by decide) (by decide) rfl (by decide) (by decide)

/-- Claim C3, amended: given that the group exists and the target is a
member, removal succeeds exactly when the permission disjunction of the code
holds — actor is Owner, or actor is the target, or the target's role is not
Owner and (the actor is Admin or the target's role is not Admin) — and the
target is not a sole Owner.  In particular a plain Member, Viewer or even a
non-member actor succeeds against a target whose role is neither Owner nor
Admin (no permission error), and an Owner's self-removal fails when they are
the only Owner. -/
theorem c3_amended_removal_success_iff :
    (∀ st orgID memberID removedBy now rf org m,
        findOrg st.orgs orgID = some org →
        org.getMember memberID = some m →
        ((removeOrganizationMember st orgID memberID removedBy now rf).err = none ↔
          ((org.hasRole removedBy [OrganizationMemberRole.owner] = true ∨
              removedBy = memberID ∨
              (m.role ≠ OrganizationMemberRole.owner ∧
                (org.hasRole removedBy [OrganizationMemberRole.admin] = true ∨
                  m.role ≠ OrganizationMemberRole.admin))) ∧
            ¬(m.role = OrganizationMemberRole.owner ∧ countOrgOwners org ≤ 1)))) ∧
    (∀ st teamID memberID removedBy now rf team m,
        findTeam st.teams teamID = some team →
        team.getMember memberID = some m →
        ((removeTeamMember st teamID memberID removedBy now rf).err = none ↔
          ((team.hasRole removedBy [TeamMemberRole.owner] = true ∨
              removedBy = memberID ∨
              (m.role ≠ TeamMemberRole.owner ∧
                (team.hasRole removedBy [TeamMemberRole.admin] = true ∨
                  m.role ≠ TeamMemberRole.admin))) ∧
            ¬(m.role = TeamMemberRole.owner ∧ countTeamOwners team ≤ 1)))) := by
  constructor
  · intro st orgID memberID removedBy now rf org m hfind hmem
    obtain ⟨l, hrem⟩ : ∃ l, orgRepoRemoveMember st.orgs orgID memberID now = Except.ok l := by
      unfold orgRepoRemoveMember
      rw [if_pos]
      · exact ⟨_, rfl⟩
      · unfold findOrg at hfind
        exact any_eq_true_of_find?_some hfind
    simp only [removeOrganizationMember, hfind, hmem, hrem]
    split
    · rename_i h1
      simp only [Bool.and_eq_true, Bool.or_eq_true, Bool.not_eq_true', Bool.eq_false_iff,
        ne_eq, decide_eq_true_eq] at h1
      constructor
      · intro habs; simp at habs
      · intro hrhs; exact absurd h1 (by tauto)
    · split
      · rename_i h2
        simp only [Bool.and_eq_true, decide_eq_true_eq] at h2
        constructor
        · intro habs; simp at habs
        · rintro ⟨_, hguard⟩; exact absurd h2 hguard
      · rename_i h1 h2
        simp only [Bool.and_eq_true, Bool.or_eq_true, Bool.not_eq_true', Bool.eq_false_iff,
          ne_eq, decide_eq_true_eq] at h1 h2
        exact ⟨fun _ => ⟨by tauto, by tauto⟩, fun _ => rfl⟩
  · intro st teamID memberID removedBy now rf team m hfind hmem
    obtain ⟨l, hrem⟩ : ∃ l, teamRepoRemoveMember st.teams teamID memberID now = Except.ok l := by
      unfold teamRepoRemoveMember
      rw [if_pos]
      · exact ⟨_, rfl⟩
      · unfold findTeam at hfind
        exact any_eq_true_of_find?_some hfind
    simp only [removeTeamMember, hfind, hmem, hrem]
    split
    · rename_i h1
      simp only [Bool.and_eq_true, Bool.or_eq_true, Bool.not_eq_true', Bool.eq_false_iff,
        ne_eq, decide_eq_true_eq] at h1
      constructor
      · intro habs; simp at habs
      · intro hrhs; exact absurd h1 (by tauto)
    · split
      · rename_i h2
        simp only [Bool.and_eq_true, decide_eq_true_eq] at h2
        constructor
        · intro habs; simp at habs
        · rintro ⟨_, hguard⟩; exact absurd h2 hguard
      · rename_i h1 h2
        simp only [Bool.and_eq_true, Bool.or_eq_true, Bool.not_eq_true', Bool.eq_false_iff,
          ne_eq, decide_eq_true_eq] at h1 h2
        exact ⟨fun _ => ⟨by tauto, by tauto⟩, fun _ => rfl⟩

/-- Claim C3 witness: the amended characterization applied to the concrete
store — the plain Member `bob` successfully removes the plain Member `carol`
from both the organization and the team. -/
theorem c3_witness_concrete :
    (removeOrganizationMember c3Store "o1" "carol" "bob" 5 false).err = none ∧
    (removeTeamMember c3Store "t1" "carol" "bob" 5 false).err = none := by
  constructor
  · exact (c3_amended_removal_success_iff.1 c3Store "o1" "carol" "bob" 5 false c3Org
      ⟨"carol", OrganizationMemberRole.member, 2, "alice"⟩ (by decide) (by decide)).mpr (by decide)
  · exact (c3_amended_removal_success_iff.2 c3Store "t1" "carol" "bob" 5 false c3TeamX
      ⟨"carol", TeamMemberRole.member, 2, "alice"⟩ (by decide) (by decide)).mpr (by decide)

/-- `findOrg` after an id-preserving first-match update. -/
theorem findOrg_updateFirstOrg (orgs : List Organization) (oid : String)
    (f : Organization → Organization) (hf : ∀ o, (f o).id = o.id) :
    findOrg (updateFirstOrg orgs oid f) oid = (findOrg orgs oid).map f := by
  induction orgs with
  | nil => rfl
  | cons o rest ih =>
    by_cases h : o.id = oid
    · simp only [updateFirstOrg, if_pos h, findOrg]
      rw [List.find?_cons_of_pos _ (by simp [hf o, h]), List.find?_cons_of_pos _ (by simp [h])]
      rfl
    · simp only [updateFirstOrg, if_neg h, findOrg]
      rw [List.find?_cons_of_neg _ (by simp [hf o, h]), List.find?_cons_of_neg _ (by simp [h])]
      exact ih

/-- `findTeam` after an id-preserving first-match update. -/
theorem findTeam_updateFirstTeam (teams : List Team) (tid : String)
    (f : Team → Team) (hf : ∀ t, (f t).id = t.id) :
    findTeam (updateFirstTeam teams tid f) tid = (findTeam teams tid).map f := by
  induction teams with
  | nil => rfl
  | cons t rest ih =>
    by_cases h : t.id = tid
    · simp only [updateFirstTeam, if_pos h, findTeam]
      rw [List.find?_cons_of_pos _ (by simp [hf t, h]), List.find?_cons_of_pos _ (by simp [h])]
      rfl
    · simp only [updateFirstTeam, if_neg h, findTeam]
      rw [List.find?_cons_of_neg _ (by simp [hf t, h]), List.find?_cons_of_neg _ (by simp [h])]
      exact ih

/-- Claim C10: a member-role-update call whose target is not currently a
member, issued by an Owner/Admin actor who is not the target (the explicit
`memberID ≠ updatedBy` hypothesis mirrors the claim's wording; it is in fact
implied by the other two hypotheses, since an actor holding a role is a
member), does not fail with a member-not-found error — it returns no error
at all and inserts the target as a brand new member with the requested role
(and a fresh `joinedAt`, with the actor recorded as `invitedBy`), because
the update path reuses the repository insert-or-update `AddMember`. -/
theorem c10_update_absent_member_inserts :
    (∀ st orgID memberID reqRole updatedBy now org,
        findOrg st.orgs orgID = some org →
        org.hasRole updatedBy [OrganizationMemberRole.owner, OrganizationMemberRole.admin]
          = true →
        org.getMember memberID = none →
        memberID ≠ updatedBy →
        (updateOrganizationMember st orgID memberID reqRole updatedBy now).err = none ∧
        findOrg (updateOrganizationMember st orgID memberID reqRole updatedBy now).store.orgs
            orgID =
          some { org with
                   members := org.members ++ [⟨memberID, reqRole, now, updatedBy⟩]
                   updatedAt := now }) ∧
    (∀ st teamID memberID reqRole updatedBy now team,
        findTeam st.teams teamID = some team →
        team.hasRole updatedBy [TeamMemberRole.owner, TeamMemberRole.admin] = true →
        team.getMember memberID = none →
        memberID ≠ updatedBy →
        (updateTeamMember st teamID memberID reqRole updatedBy now).err = none ∧
        findTeam (updateTeamMember st teamID memberID reqRole updatedBy now).store.teams teamID =
          some { team with
                   members := team.members ++ [⟨memberID, reqRole, now, updatedBy⟩]
                   updatedAt := now }) := by
  constructor
  · intro st orgID memberID reqRole updatedBy now org hfind hhas hmem hne
    have hany : org.members.any (fun m => decide (m.userId = memberID)) = false := by
      unfold Organization.getMember at hmem
      exact any_eq_false_of_find?_none hmem
    have hred : updateOrganizationMember st orgID memberID reqRole updatedBy now =
        ⟨none, { st with orgs := orgRepoAddMember st.orgs orgID memberID reqRole updatedBy now }⟩ := by
      simp [updateOrganizationMember, hfind, hmem, hhas]
    rw [hred]
    refine ⟨rfl, ?_⟩
    unfold orgRepoAddMember
    dsimp only
    rw [findOrg_updateFirstOrg st.orgs orgID
      (fun o => { o with members := orgMembersAddMember o.members memberID reqRole updatedBy now
                         updatedAt := now }) (fun o => rfl), hfind]
    simp only [Option.map_some']
    unfold orgMembersAddMember
    rw [hany]
    simp
  · intro st teamID memberID reqRole updatedBy now team hfind hhas hmem hne
    have hany : team.members.any (fun m => decide (m.userId = memberID)) = false := by
      unfold Team.getMember at hmem
      exact any_eq_false_of_find?_none hmem
    have hred : updateTeamMember st teamID memberID reqRole updatedBy now =
        ⟨none, { st with teams := teamRepoAddMember st.teams teamID memberID reqRole updatedBy now }⟩ := by
      simp [updateTeamMember, hfind, hmem, hhas]
    rw [hred]
    refine ⟨rfl, ?_⟩
    unfold teamRepoAddMember
    dsimp only
    rw [findTeam_updateFirstTeam st.teams teamID
      (fun t => { t with members := teamMembersAddMember t.members memberID reqRole updatedBy now
                         updatedAt := now }) (fun t => rfl), hfind]
    simp only [Option.map_some']
    unfold teamMembersAddMember
    rw [hany]
    simp

/-- Organization for the claim C10 witness: `dave` is its sole Owner and
`erin` is not a member. -/
def c10Org : Organization := ⟨"o3", "Org Three", [⟨"dave", OrganizationMemberRole.owner, 0, ""⟩], [], 0⟩

/-- Team for the claim C10 witness. -/
def c10Team : Team := ⟨"t3", "Team Three", "o3", [⟨"dave", TeamMemberRole.owner, 0, ""⟩], 0⟩

/-- Store for the claim C10 witness. -/
def c10Store : Store :=
  ⟨[⟨"dave", "dave@example.com", "Dave", "L", UserRole.user, UserStatus.active, ["o3"], ["t3"], 0⟩,
    ⟨"erin", "erin@example.com", "Erin", "L", UserRole.user, UserStatus.active, [], [], 0⟩],
   [c10Org], [c10Team]⟩

/-- Claim C10 witness: `dave` (Owner) "updates" the non-member `erin` — both
calls succeed and insert `erin` as a new member with the requested role. -/
theorem c10_witness_concrete :
    ((updateOrganizationMember c10Store "o3" "erin" OrganizationMemberRole.admin "dave" 4).err
        = none ∧
      findOrg (updateOrganizationMember c10Store "o3" "erin" OrganizationMemberRole.admin
          "dave" 4).store.orgs "o3" =
        some { c10Org with
                 members := c10Org.members ++ [⟨"erin", OrganizationMemberRole.admin, 4, "dave"⟩]
                 updatedAt := 4 }) ∧
    ((updateTeamMember c10Store "t3" "erin" TeamMemberRole.viewer "dave" 4).err = none ∧
      findTeam (updateTeamMember c10Store "t3" "erin" TeamMemberRole.viewer
          "dave" 4).store.teams "t3" =
        some { c10Team with
                 members := c10Team.members ++ [⟨"erin", TeamMemberRole.viewer, 4, "dave"⟩]
                 updatedAt := 4 }) := by
  constructor
  · exact c10_update_absent_member_inserts.1 c10Store "o3" "erin" OrganizationMemberRole.admin
      "dave" 4 c10Org (by decide) (by decide) (by decide) (by decide)
  · exact c10_update_absent_member_inserts.2 c10Store "t3" "erin" TeamMemberRole.viewer
      "dave" 4 c10Team (by decide) (by decide) (by decide) (by decide)

/-- Op alphabet of the in-memory `Team` model member methods (claim C4). -/
inductive TeamModelOp
  | addOp (userID : String) (role : TeamMemberRole) (invitedBy : String) (now : Nat)
  | updateOp (userID : String) (role : TeamMemberRole) (now : Nat)
  | removeOp (userID : String) (now : Nat)

/-- Apply one model method (only the mutated team matters for the invariant;
the returned change flag is dropped). -/
def applyTeamModelOp (t : Team) : TeamModelOp → Team
  | TeamModelOp.addOp u r i n => (t.addMember u r i n).1
  | TeamModelOp.updateOp u r n => (t.updateMember u r n).1
  | TeamModelOp.removeOp u n => (t.removeMember u n).1

/-- Op alphabet of the repository member writes on an organization's members
array (`AddMember` doubles as the update; `RemoveMember` is a `$pull`). -/
inductive OrgRepoMemberOp
  | addOp (userID : String) (role : OrganizationMemberRole) (invitedBy : String) (now : Nat)
  | removeOp (userID : String)

/-- Apply one repository member write to the members array. -/
def applyOrgRepoMemberOp (ms : List OrganizationMember) :
    OrgRepoMemberOp → List OrganizationMember
  | OrgRepoMemberOp.addOp u r i n => orgMembersAddMember ms u r i n
  | OrgRepoMemberOp.removeOp u => ms.filter (fun m => !(decide (m.userId = u)))

/-- An in-place role update changes no `userId`, `joinedAt` or `invitedBy`. -/
theorem teamSetRoleFirst_map_profile (l : List TeamMember) (uid : String) (r : TeamMemberRole) :
    (teamSetRoleFirst l uid r).map (fun m => (m.userId, m.joinedAt, m.invitedBy)) =
      l.map (fun m => (m.userId, m.joinedAt, m.invitedBy)) := by
  induction l with
  | nil => rfl
  | cons m rest ih =>
    unfold teamSetRoleFirst
    split_ifs with h <;> simp [ih]

/-- An in-place role update changes no `userId`. -/
theorem teamSetRoleFirst_map_userId (l : List TeamMember) (uid : String) (r : TeamMemberRole) :
    (teamSetRoleFirst l uid r).map (fun m => m.userId) = l.map (fun m => m.userId) := by
  induction l with
  | nil => rfl
  | cons m rest ih =>
    unfold teamSetRoleFirst
    split_ifs with h <;> simp [ih]

/-- An in-place role update changes no `userId`, `joinedAt` or `invitedBy`. -/
theorem orgSetRoleFirst_map_profile (l : List OrganizationMember) (uid : String)
    (r : OrganizationMemberRole) :
    (orgSetRoleFirst l uid r).map (fun m => (m.userId, m.joinedAt, m.invitedBy)) =
      l.map (fun m => (m.userId, m.joinedAt, m.invitedBy)) := by
  induction l with
  | nil => rfl
  | cons m rest ih =>
    unfold orgSetRoleFirst
    split_ifs with h <;> simp [ih]

/-- An in-place role update changes no `userId`. -/
theorem orgSetRoleFirst_map_userId (l : List OrganizationMember) (uid : String)
    (r : OrganizationMemberRole) :
    (orgSetRoleFirst l uid r).map (fun m => m.userId) = l.map (fun m => m.userId) := by
  induction l with
  | nil => rfl
  | cons m rest ih =>
    unfold orgSetRoleFirst
    split_ifs with h <;> simp [ih]

/-- Removing the first matching member yields a sublist. -/
theorem teamRemoveFirstMember_sublist (l : List TeamMember) (uid : String) :
    (teamRemoveFirstMember l uid).Sublist l := by
  induction l with
  | nil => exact List.Sublist.refl _
  | cons m rest ih =>
    unfold teamRemoveFirstMember
    split_ifs with h
    · exact (List.Sublist.refl rest).cons m
    · exact ih.cons₂ m

/-- `Team.addMember` keeps the no-duplicate invariant of the userId column. -/
theorem team_addMember_nodup (t : Team) (u : String) (r : TeamMemberRole) (i : String)
    (n : Nat) (h : (t.members.map (fun m => m.userId)).Nodup) :
    ((t.addMember u r i n).1.members.map (fun m => m.userId)).Nodup := by
  unfold Team.addMember
  cases hf : t.members.find? (fun m => decide (m.userId = u)) with
  | some m =>
    dsimp only
    split_ifs with hr
    · exact h
    · dsimp only
      rw [teamSetRoleFirst_map_userId]
      exact h
  | none =>
    dsimp only
    rw [List.map_append]
    have hnotin : u ∉ t.members.map (fun m => m.userId) := by
      intro hmem
      obtain ⟨m, hm, hum⟩ := List.mem_map.mp hmem
      have hno := List.find?_eq_none.mp hf m hm
      simp [hum] at hno
    refine List.Nodup.append h (List.nodup_singleton _) ?_
    intro a ha hb
    rw [List.map_singleton, List.mem_singleton] at hb
    subst hb
    exact hnotin ha

/-- `Team.updateMember` keeps the no-duplicate invariant. -/
theorem team_updateMember_nodup (t : Team) (u : String) (r : TeamMemberRole) (n : Nat)
    (h : (t.members.map (fun m => m.userId)).Nodup) :
    ((t.updateMember u r n).1.members.map (fun m => m.userId)).Nodup := by
  unfold Team.updateMember
  cases hf : t.members.find? (fun m => decide (m.userId = u)) with
  | some m =>
    dsimp only
    split_ifs with hr
    · exact h
    · dsimp only
      rw [teamSetRoleFirst_map_userId]
      exact h
  | none => exact h

/-- `Team.removeMember` keeps the no-duplicate invariant. -/
theorem team_removeMember_nodup (t : Team) (u : String) (n : Nat)
    (h : (t.members.map (fun m => m.userId)).Nodup) :
    ((t.removeMember u n).1.members.map (fun m => m.userId)).Nodup := by
  unfold Team.removeMember
  split_ifs with hr
  · exact List.Nodup.sublist ((teamRemoveFirstMember_sublist t.members u).map _) h
  · exact h

/-- The repository insert-or-update keeps the no-duplicate invariant. -/
theorem orgMembersAddMember_nodup (ms : List OrganizationMember) (u : String)
    (r : OrganizationMemberRole) (i : String) (n : Nat)
    (h : (ms.map (fun m => m.userId)).Nodup) :
    ((orgMembersAddMember ms u r i n).map (fun m => m.userId)).Nodup := by
  unfold orgMembersAddMember
  cases ha : ms.any (fun m => decide (m.userId = u)) with
  | true =>
    rw [if_pos rfl]
    rw [orgSetRoleFirst_map_userId]
    exact h
  | false =>
    rw [if_neg (by simp)]
    rw [List.map_append]
    have hnotin : u ∉ ms.map (fun m => m.userId) := by
      intro hmem
      obtain ⟨m, hm, hum⟩ := List.mem_map.mp hmem
      have : ms.any (fun m => decide (m.userId = u)) = true :=
        List.any_eq_true.mpr ⟨m, hm, by simp [hum]⟩
      rw [ha] at this
      cases this
    refine List.Nodup.append h (List.nodup_singleton _) ?_
    intro a haa hb
    rw [List.map_singleton, List.mem_singleton] at hb
    subst hb
    exact hnotin haa

/-- Claim C4: the `members` sequence never acquires two entries with the same
`userId`.  (i) Any sequence of in-memory `Team` model operations
(AddMember/UpdateMember/RemoveMember) preserves the no-duplicate invariant;
(ii) `Team.AddMember` on an existing `userId` changes no `userId` (in
particular it appends nothing); (iii) any sequence of repository member
writes (insert-or-update, `$pull`) preserves the invariant on an
organization's members array; (iv) the repository insert-or-update on an
existing `userId` changes no `userId`. -/
theorem c4_members_nodup_preserved :
    (∀ (t : Team) (ops : List TeamModelOp),
        (t.members.map (fun m => m.userId)).Nodup →
        ((ops.foldl applyTeamModelOp t).members.map (fun m => m.userId)).Nodup) ∧
    (∀ (t : Team) (u : String) (r : TeamMemberRole) (i : String) (n : Nat),
        t.members.any (fun m => decide (m.userId = u)) = true →
        (t.addMember u r i n).1.members.map (fun m => m.userId) =
          t.members.map (fun m => m.userId)) ∧
    (∀ (ms : List OrganizationMember) (ops : List OrgRepoMemberOp),
        (ms.map (fun m => m.userId)).Nodup →
        ((ops.foldl applyOrgRepoMemberOp ms).map (fun m => m.userId)).Nodup) ∧
    (∀ (ms : List OrganizationMember) (u : String) (r : OrganizationMemberRole) (i : String)
        (n : Nat),
        ms.any (fun m => decide (m.userId = u)) = true →
        (orgMembersAddMember ms u r i n).map (fun m => m.userId) =
          ms.map (fun m => m.userId)) := by
  refine ⟨?_, ?_, ?_, ?_⟩
  · intro t ops
    induction ops generalizing t with
    | nil => exact fun h => h
    | cons op rest ih =>
      intro h
      rw [List.foldl_cons]
      refine ih _ ?_
      cases op with
      | addOp u r i n => exact team_addMember_nodup t u r i n h
      | updateOp u r n => exact team_updateMember_nodup t u r n h
      | removeOp u n => exact team_removeMember_nodup t u n h
  · intro t u r i n hany
    unfold Team.addMember
    cases hf : t.members.find? (fun m => decide (m.userId = u)) with
    | some m =>
      dsimp only
      split_ifs with hr
      · rfl
      · exact teamSetRoleFirst_map_userId t.members u r
    | none =>
      rw [any_eq_false_of_find?_none hf] at hany
      cases hany
  · intro ms ops
    induction ops generalizing ms with
    | nil => exact fun h => h
    | cons op rest ih =>
      intro h
      rw [List.foldl_cons]
      refine ih _ ?_
      cases op with
      | addOp u r i n => exact orgMembersAddMember_nodup ms u r i n h
      | removeOp u =>
        exact List.Nodup.sublist ((List.filter_sublist ms).map _) h
  · intro ms u r i n hany
    unfold orgMembersAddMember
    rw [if_pos (by rw [hany])]
    exact orgSetRoleFirst_map_userId ms u r

/-- Team used by the claim C4 witness. -/
def c4Team : Team :=
  ⟨"t4", "Team Four", "o4",
   [⟨"pat", TeamMemberRole.owner, 0, ""⟩, ⟨"quin", TeamMemberRole.member, 1, "pat"⟩], 1⟩

/-- Claim C4 witness: a concrete operation sequence that re-adds an existing
member twice, updates and removes, keeps the userId column duplicate-free,
and the duplicate add changes no `userId`. -/
theorem c4_witness_concrete :
    ((([TeamModelOp.addOp "quin" TeamMemberRole.admin "pat" 2,
        TeamModelOp.addOp "rex" TeamMemberRole.viewer "pat" 3,
        TeamModelOp.addOp "rex" TeamMemberRole.member "pat" 4,
        TeamModelOp.updateOp "pat" TeamMemberRole.owner 5,
        TeamModelOp.removeOp "quin" 6] : List TeamModelOp).foldl applyTeamModelOp
        c4Team).members.map (fun m => m.userId)).Nodup ∧
    (c4Team.addMember "quin" TeamMemberRole.admin "pat" 2).1.members.map (fun m => m.userId) =
      c4Team.members.map (fun m => m.userId) ∧
    ((([OrgRepoMemberOp.addOp "quin" OrganizationMemberRole.admin "pat" 2,
        OrgRepoMemberOp.addOp "rex" OrganizationMemberRole.member "pat" 3,
        OrgRepoMemberOp.addOp "rex" OrganizationMemberRole.admin "pat" 4,
        OrgRepoMemberOp.removeOp "quin"] : List OrgRepoMemberOp).foldl applyOrgRepoMemberOp
        [⟨"pat", OrganizationMemberRole.owner, 0, ""⟩,
         ⟨"quin", OrganizationMemberRole.member, 1, "pat"⟩]).map (fun m => m.userId)).Nodup ∧
    (orgMembersAddMember
        [⟨"pat", OrganizationMemberRole.owner, 0, ""⟩,
         ⟨"quin", OrganizationMemberRole.member, 1, "pat"⟩]
        "quin" OrganizationMemberRole.admin "pat" 2).map (fun m => m.userId) =
      ["pat", "quin"] := by
  refine ⟨?_, ?_, ?_, ?_⟩
  · exact c4_members_nodup_preserved.1 c4Team _ (by decide)
  · exact c4_members_nodup_preserved.2.1 c4Team "quin" TeamMemberRole.admin "pat" 2 (by decide)
  · exact c4_members_nodup_preserved.2.2.1 _ _ (by decide)
  · exact c4_members_nodup_preserved.2.2.2
      [⟨"pat", OrganizationMemberRole.owner, 0, ""⟩,
       ⟨"quin", OrganizationMemberRole.member, 1, "pat"⟩]
      "quin" OrganizationMemberRole.admin "pat" 2 (by decide)

/-- Claim C8: the repository insert-or-update (i, iii) preserves every
member's `userId`, `joinedAt` and `invitedBy` when the target `userId` is
already present (only the role may change), (ii, iv) appends exactly one
fresh entry with `joinedAt := now` when it is absent; (v, vi) the in-memory
`Team.AddMember` behaves the same; and (vii) the store-level repository write
also advances the group's `updatedAt` to `now`. -/
theorem c8_joined_at_preserved_and_fresh :
    (∀ (ms : List OrganizationMember) (u : String) (r : OrganizationMemberRole) (i : String)
        (n : Nat),
        ms.any (fun m => decide (m.userId = u)) = true →
        (orgMembersAddMember ms u r i n).map (fun m => (m.userId, m.joinedAt, m.invitedBy)) =
          ms.map (fun m => (m.userId, m.joinedAt, m.invitedBy))) ∧
    (∀ (ms : List OrganizationMember) (u : String) (r : OrganizationMemberRole) (i : String)
        (n : Nat),
        ms.any (fun m => decide (m.userId = u)) = false →
        orgMembersAddMember ms u r i n = ms ++ [⟨u, r, n, i⟩]) ∧
    (∀ (ms : List TeamMember) (u : String) (r : TeamMemberRole) (i : String) (n : Nat),
        ms.any (fun m => decide (m.userId = u)) = true →
        (teamMembersAddMember ms u r i n).map (fun m => (m.userId, m.joinedAt, m.invitedBy)) =
          ms.map (fun m => (m.userId, m.joinedAt, m.invitedBy))) ∧
    (∀ (ms : List TeamMember) (u : String) (r : TeamMemberRole) (i : String) (n : Nat),
        ms.any (fun m => decide (m.userId = u)) = false →
        teamMembersAddMember ms u r i n = ms ++ [⟨u, r, n, i⟩]) ∧
    (∀ (t : Team) (u : String) (r : TeamMemberRole) (i : String) (n : Nat),
        t.members.any (fun m => decide (m.userId = u)) = true →
        (t.addMember u r i n).1.members.map (fun m => (m.userId, m.joinedAt, m.invitedBy)) =
          t.members.map (fun m => (m.userId, m.joinedAt, m.invitedBy))) ∧
    (∀ (t : Team) (u : String) (r : TeamMemberRole) (i : String) (n : Nat),
        t.members.any (fun m => decide (m.userId = u)) = false →
        (t.addMember u r i n).1.members = t.members ++ [⟨u, r, n, i⟩]) ∧
    (∀ (orgs : List Organization) (orgID u : String) (r : OrganizationMemberRole) (i : String)
        (now : Nat) (org : Organization),
        findOrg orgs orgID = some org →
        findOrg (orgRepoAddMember orgs orgID u r i now) orgID =
          some { org with members := orgMembersAddMember org.members u r i now
                          updatedAt := now }) := by
  refine ⟨?_, ?_, ?_, ?_, ?_, ?_, ?_⟩
  · intro ms u r i n hany
    unfold orgMembersAddMember
    rw [if_pos (by rw [hany])]
    exact orgSetRoleFirst_map_profile ms u r
  · intro ms u r i n hany
    unfold orgMembersAddMember
    rw [if_neg (by simp [hany])]
  · intro ms u r i n hany
    unfold teamMembersAddMember
    rw [if_pos (by rw [hany])]
    exact teamSetRoleFirst_map_profile ms u r
  · intro ms u r i n hany
    unfold teamMembersAddMember
    rw [if_neg (by simp [hany])]
  · intro t u r i n hany
    unfold Team.addMember
    cases hf : t.members.find? (fun m => decide (m.userId = u)) with
    | some m =>
      dsimp only
      split_ifs with hr
      · rfl
      · exact teamSetRoleFirst_map_profile t.members u r
    | none =>
      rw [any_eq_false_of_find?_none hf] at hany
      cases hany
  · intro t u r i n hany
    unfold Team.addMember
    cases hf : t.members.find? (fun m => decide (m.userId = u)) with
    | some m =>
      rw [any_eq_true_of_find?_some hf] at hany
      cases hany
    | none => rfl
  · intro orgs orgID u r i now org hfind
    unfold orgRepoAddMember
    rw [findOrg_updateFirstOrg orgs orgID
      (fun o => { o with members := orgMembersAddMember o.members u r i now
                         updatedAt := now }) (fun o => rfl), hfind]
    rfl

/-- Claim C8 witness: concrete evaluations — re-adding `quin` with a new role
keeps her `joinedAt` (1) and every `userId`/`invitedBy`, while adding the
absent `rex` appends a fresh entry with `joinedAt := 9`; the store-level
write advances `updatedAt`. -/
theorem c8_witness_concrete :
    (orgMembersAddMember
        [⟨"pat", OrganizationMemberRole.owner, 0, ""⟩,
         ⟨"quin", OrganizationMemberRole.member, 1, "pat"⟩]
        "quin" OrganizationMemberRole.admin "pat" 9).map
        (fun m => (m.userId, m.joinedAt, m.invitedBy)) =
      [("pat", 0, ""), ("quin", 1, "pat")] ∧
    orgMembersAddMember
        [⟨"pat", OrganizationMemberRole.owner, 0, ""⟩]
        "rex" OrganizationMemberRole.member "pat" 9 =
      [⟨"pat", OrganizationMemberRole.owner, 0, ""⟩,
       ⟨"rex", OrganizationMemberRole.member, 9, "pat"⟩] ∧
    (Team.addMember ⟨"t8", "Team Eight", "o8", [⟨"pat", TeamMemberRole.owner, 0, ""⟩,
         ⟨"quin", TeamMemberRole.viewer, 1, "pat"⟩], 1⟩
        "quin" TeamMemberRole.admin "pat" 9).1.members.map
        (fun m => (m.userId, m.joinedAt, m.invitedBy)) =
      [("pat", 0, ""), ("quin", 1, "pat")] ∧
    findOrg (orgRepoAddMember
        [⟨"o8", "Org Eight", [⟨"pat", OrganizationMemberRole.owner, 0, ""⟩], [], 0⟩]
        "o8" "quin" OrganizationMemberRole.member "pat" 9) "o8" =
      some ⟨"o8", "Org Eight", [⟨"pat", OrganizationMemberRole.owner, 0, ""⟩,
        ⟨"quin", OrganizationMemberRole.member, 9, "pat"⟩], [], 9⟩ := by
  refine ⟨?_, ?_, ?_, ?_⟩
  · exact c8_joined_at_preserved_and_fresh.1
      [⟨"pat", OrganizationMemberRole.owner, 0, ""⟩,
       ⟨"quin", OrganizationMemberRole.member, 1, "pat"⟩]
      "quin" OrganizationMemberRole.admin "pat" 9 (by decide)
  · exact c8_joined_at_preserved_and_fresh.2.1
      [⟨"pat", OrganizationMemberRole.owner, 0, ""⟩]
      "rex" OrganizationMemberRole.member "pat" 9 (by decide)
  · exact c8_joined_at_preserved_and_fresh.2.2.2.2.1
      ⟨"t8", "Team Eight", "o8", [⟨"pat", TeamMemberRole.owner, 0, ""⟩,
        ⟨"quin", TeamMemberRole.viewer, 1, "pat"⟩], 1⟩
      "quin" TeamMemberRole.admin "pat" 9 (by decide)
  · exact c8_joined_at_preserved_and_fresh.2.2.2.2.2.2
      [⟨"o8", "Org Eight", [⟨"pat", OrganizationMemberRole.owner, 0, ""⟩], [], 0⟩]
      "o8" "quin" OrganizationMemberRole.member "pat" 9
      ⟨"o8", "Org Eight", [⟨"pat", OrganizationMemberRole.owner, 0, ""⟩], [], 0⟩ (by decide)

/-- Claim C6: `ProcessAuthUserCreated` (i) rejects any payload missing a
required field (id, email, firstName, lastName) without touching the store;
(ii) succeeds without touching the store when a user with the event's
`userId` already exists; (iii) on the first well-formed delivery into a store
with no matching `userId` and no conflicting email it creates exactly one
user with that `userId`, and re-delivering the identical event leaves the
store unchanged (idempotence). -/
theorem c6_process_auth_user_created_idempotent :
    (∀ st d now,
        (d.id.getD "" = "" ∨ d.email.getD "" = "" ∨ d.firstName.getD "" = "" ∨
          d.lastName.getD "" = "") →
        processAuthUserCreated st d now = ⟨some "missing required fields", st⟩) ∧
    (∀ st d now u,
        ¬(d.id.getD "" = "" ∨ d.email.getD "" = "" ∨ d.firstName.getD "" = "" ∨
          d.lastName.getD "" = "") →
        findUser st.users (d.id.getD "") = some u →
        processAuthUserCreated st d now = ⟨none, st⟩) ∧
    (∀ st d now now2,
        ¬(d.id.getD "" = "" ∨ d.email.getD "" = "" ∨ d.firstName.getD "" = "" ∨
          d.lastName.getD "" = "") →
        findUser st.users (d.id.getD "") = none →
        st.users.any (fun x => decide (x.email = d.email.getD "")) = false →
        ∃ st1, processAuthUserCreated st d now = ⟨none, st1⟩ ∧
          st1.users.countP (fun x => decide (x.userId = d.id.getD "")) = 1 ∧
          processAuthUserCreated st1 d now2 = ⟨none, st1⟩) := by
  refine ⟨?_, ?_, ?_⟩
  · intro st d now hmal
    simp only [processAuthUserCreated]
    rw [if_pos hmal]
  · intro st d now u h hfound
    simp only [processAuthUserCreated]
    rw [if_neg h, hfound]
  · intro st d now now2 h hnone hemail
    have hnone' : st.users.find? (fun x => decide (x.userId = d.id.getD "")) = none := hnone
    have hany : st.users.any (fun x => decide (x.userId = d.id.getD "")) = false :=
      any_eq_false_of_find?_none hnone'
    have hcreate : userRepoCreate st.users
        (newUser ⟨d.id.getD "", d.email.getD "", d.firstName.getD "", d.lastName.getD "",
          parseAuthRole (d.role.getD "")⟩ now) =
        Except.ok (st.users ++
          [newUser ⟨d.id.getD "", d.email.getD "", d.firstName.getD "", d.lastName.getD "",
            parseAuthRole (d.role.getD "")⟩ now]) := by
      simp only [userRepoCreate, newUser]
      rw [if_neg (by simp [hany]), if_neg (by simp [hemail])]
    refine ⟨{ st with users := st.users ++
        [newUser ⟨d.id.getD "", d.email.getD "", d.firstName.getD "", d.lastName.getD "",
          parseAuthRole (d.role.getD "")⟩ now] }, ?_, ?_, ?_⟩
    · simp only [processAuthUserCreated]
      rw [if_neg h, hnone]
      simp only [createUser]
      rw [hcreate]
    · simp only [List.countP_append]
      have h0 : st.users.countP (fun x => decide (x.userId = d.id.getD "")) = 0 := by
        rw [List.countP_eq_zero]
        intro a ha
        exact List.find?_eq_none.mp hnone' a ha
      rw [h0]
      simp [newUser]
    · simp only [processAuthUserCreated]
      rw [if_neg h]
      have hfind1 : ({ st with users := st.users ++
          [newUser ⟨d.id.getD "", d.email.getD "", d.firstName.getD "", d.lastName.getD "",
            parseAuthRole (d.role.getD "")⟩ now] } : Store).users.find?
            (fun x => decide (x.userId = d.id.getD "")) =
          some (newUser ⟨d.id.getD "", d.email.getD "", d.firstName.getD "",
            d.lastName.getD "", parseAuthRole (d.role.getD "")⟩ now) := by
        dsimp only
        rw [find?_append_of_none _ _ hnone']
        exact List.find?_cons_of_pos _ (by simp [newUser])
      rw [show findUser ({ st with users := st.users ++
          [newUser ⟨d.id.getD "", d.email.getD "", d.firstName.getD "", d.lastName.getD "",
            parseAuthRole (d.role.getD "")⟩ now] } : Store).users (d.id.getD "") =
          some (newUser ⟨d.id.getD "", d.email.getD "", d.firstName.getD "",
            d.lastName.getD "", parseAuthRole (d.role.getD "")⟩ now) from hfind1]

/-- Payload for the claim C6 witness. -/
def c6Data : AuthUserCreatedData :=
  ⟨some "u9", some "u9@example.com", some "U", some "Nine", some "presenter"⟩

/-- Malformed payload (missing id) for the claim C6 witness. -/
def c6BadData : AuthUserCreatedData :=
  ⟨none, some "u9@example.com", some "U", some "Nine", none⟩

/-- Store already holding the event's user, for the claim C6 witness. -/
def c6StoreExisting : Store :=
  ⟨[⟨"u9", "old@example.com", "Old", "Nine", UserRole.user, UserStatus.active, [], [], 0⟩],
   [], []⟩

/-- Claim C6 witness: on the empty store the event creates exactly one `u9`
user and its redelivery is a no-op; the malformed payload is rejected with
the store untouched; an existing `u9` makes the event a no-op. -/
theorem c6_witness_concrete :
    (∃ st1, processAuthUserCreated ⟨[], [], []⟩ c6Data 1 = ⟨none, st1⟩ ∧
      st1.users.countP (fun x => decide (x.userId = c6Data.id.getD "")) = 1 ∧
      processAuthUserCreated st1 c6Data 2 = ⟨none, st1⟩) ∧
    processAuthUserCreated ⟨[], [], []⟩ c6BadData 1 =
      ⟨some "missing required fields", ⟨[], [], []⟩⟩ ∧
    processAuthUserCreated c6StoreExisting c6Data 1 = ⟨none, c6StoreExisting⟩ := by
  refine ⟨?_, ?_, ?_⟩
  · exact c6_process_auth_user_created_idempotent.2.2 ⟨[], [], []⟩ c6Data 1 2
      (by decide) (by decide) (by decide)
  · exact c6_process_auth_user_created_idempotent.1 ⟨[], [], []⟩ c6BadData 1 (by decide)
  · exact c6_process_auth_user_created_idempotent.2.1 c6StoreExisting c6Data 1
      ⟨"u9", "old@example.com", "Old", "Nine", UserRole.user, UserStatus.active, [], [], 0⟩
      (by decide) (by decide)

/-- `DeleteOne` on the teams collection yields a sublist. -/
theorem removeFirstTeam_sublist (ts : List Team) (tid : String) :
    (removeFirstTeam ts tid).Sublist ts := by
  induction ts with
  | nil => exact List.Sublist.refl _
  | cons t rest ih =>
    unfold removeFirstTeam
    split_ifs with h
    · exact (List.Sublist.refl rest).cons t
    · exact ih.cons₂ t

/-- The best-effort team-deletion loop of `DeleteOrganization` only ever
removes team records. -/
theorem foldl_delete_teams_sublist (tdf : String → Bool) (l : List String) (ts : List Team) :
    (l.foldl (fun ts2 tid => if tdf tid then ts2 else removeFirstTeam ts2 tid) ts).Sublist
      ts := by
  induction l generalizing ts with
  | nil => exact List.Sublist.refl ts
  | cons tid rest ih =>
    rw [List.foldl_cons]
    refine (ih _).trans ?_
    split_ifs with h
    · exact List.Sublist.refl ts
    · exact removeFirstTeam_sublist ts tid

/-- With unique team ids, no record with the deleted id survives `DeleteOne`. -/
theorem removeFirstTeam_id_ne (ts : List Team) (tid : String)
    (hnd : (ts.map (fun t => t.id)).Nodup) :
    ∀ t ∈ removeFirstTeam ts tid, t.id ≠ tid := by
  induction ts with
  | nil => intro t ht; cases ht
  | cons t0 rest ih =>
    unfold removeFirstTeam
    split_ifs with h
    · intro t ht htid
      rcases List.nodup_cons.mp hnd with ⟨h0, _⟩
      apply h0
      have hm : t.id ∈ rest.map (fun t => t.id) := List.mem_map.mpr ⟨t, ht, rfl⟩
      rw [htid] at hm
      show t0.id ∈ rest.map (fun t => t.id)
      rw [h]
      exact hm
    · intro t ht
      rcases List.mem_cons.mp ht with rfl | hmem
      · exact h
      · exact ih (List.nodup_cons.mp hnd).2 t hmem

/-- The team-deletion loop removes (at least) every child team whose
best-effort deletion does not fail. -/
theorem delete_teams_fold_clears (tdf : String → Bool) (l : List String) (ts : List Team)
    (hnd : (ts.map (fun t => t.id)).Nodup) (hf : ∀ tid ∈ l, tdf tid = false) :
    ∀ t ∈ l.foldl (fun ts2 tid => if tdf tid then ts2 else removeFirstTeam ts2 tid) ts,
      t.id ∉ l := by
  induction l generalizing ts with
  | nil => intro t _ hc; cases hc
  | cons tid rest ih =>
    intro t ht
    rw [List.foldl_cons] at ht
    have h0 : tdf tid = false := hf tid (List.mem_cons_self _ _)
    rw [if_neg (by simp [h0])] at ht
    have hnd' : ((removeFirstTeam ts tid).map (fun t => t.id)).Nodup :=
      List.Nodup.sublist ((removeFirstTeam_sublist ts tid).map _) hnd
    have hrest : t.id ∉ rest :=
      ih (removeFirstTeam ts tid) hnd' (fun x hx => hf x (List.mem_cons_of_mem _ hx)) t ht
    have hmem2 : t ∈ removeFirstTeam ts tid :=
      (foldl_delete_teams_sublist tdf rest _).subset ht
    have hne : t.id ≠ tid := removeFirstTeam_id_ne ts tid hnd t hmem2
    intro hc
    rcases List.mem_cons.mp hc with hc1 | hc2
    · exact hne hc1
    · exact hrest hc2

/-- A first-match user update that does not touch `teamIds` leaves the
`teamIds` column unchanged. -/
theorem updateFirstUser_map_teamIds (us : List User) (uid : String) (f : User → User)
    (hf : ∀ u, (f u).teamIds = u.teamIds) :
    (updateFirstUser us uid f).map (fun u => u.teamIds) = us.map (fun u => u.teamIds) := by
  induction us with
  | nil => rfl
  | cons u0 rest ih =>
    unfold updateFirstUser
    split_ifs with h <;> simp [ih, hf u0]

/-- A first-match user update that does not touch `userId` leaves the
`userId` column unchanged. -/
theorem updateFirstUser_map_userId (us : List User) (uid : String) (f : User → User)
    (hf : ∀ u, (f u).userId = u.userId) :
    (updateFirstUser us uid f).map (fun u => u.userId) = us.map (fun u => u.userId) := by
  induction us with
  | nil => rfl
  | cons u0 rest ih =>
    unfold updateFirstUser
    split_ifs with h <;> simp [ih, hf u0]

/-- The reverse-reference removal loop of `DeleteOrganization` never touches
any user's `teamIds`. -/
theorem users_fold_map_teamIds (rvf : String → Bool) (oid : String) (now : Nat)
    (l : List OrganizationMember) (us : List User) :
    ((l.foldl (fun us2 m =>
        if rvf m.userId then us2 else removeOrganizationFromUser us2 m.userId oid now)
      us).map (fun u => u.teamIds)) = us.map (fun u => u.teamIds) := by
  induction l generalizing us with
  | nil => rfl
  | cons m0 rest ih =>
    rw [List.foldl_cons]
    rw [ih]
    split_ifs with h
    · rfl
    · exact updateFirstUser_map_teamIds us m0.userId _ (fun u => rfl)

/-- A first-match application of an `organizationIds`-filtering update keeps
every already-clear user clear. -/
theorem updateFirstUser_keeps_clear (us : List User) (uid : String) (f : User → User)
    (target oid : String)
    (hfo : ∀ u, oid ∉ (f u).organizationIds)
    (hp : ∀ u ∈ us, u.userId = target → oid ∉ u.organizationIds) :
    ∀ u ∈ updateFirstUser us uid f, u.userId = target → oid ∉ u.organizationIds := by
  induction us with
  | nil => intro u hu; cases hu
  | cons u0 rest ih
  => unfold updateFirstUser
     split_ifs with h
     · intro u hu huid
       rcases List.mem_cons.mp hu with rfl | hmem
       · exact hfo u0
       · exact hp u (List.mem_cons_of_mem _ hmem) huid
     · intro u hu huid
       rcases List.mem_cons.mp hu with rfl | hmem
       · exact hp u (List.mem_cons_self _ _) huid
       · exact ih (fun x hx => hp x (List.mem_cons_of_mem _ hx)) u hmem huid

/-- The reverse-reference removal loop keeps every already-clear user clear. -/
theorem users_fold_keeps_clear (rvf : String → Bool) (oid : String) (now : Nat)
    (target : String) (l : List OrganizationMember) (us : List User)
    (hp : ∀ u ∈ us, u.userId = target → oid ∉ u.organizationIds) :
    ∀ u ∈ l.foldl (fun us2 m =>
        if rvf m.userId then us2 else removeOrganizationFromUser us2 m.userId oid now) us,
      u.userId = target → oid ∉ u.organizationIds := by
  induction l generalizing us with
  | nil => exact hp
  | cons m0 rest ih =>
    rw [List.foldl_cons]
    refine ih _ ?_
    split_ifs with h
    · exact hp
    · exact updateFirstUser_keeps_clear us m0.userId _ target oid
        (fun u => by simp [List.mem_filter]) hp

/-- `RemoveOrganizationFromUser` clears the reference of the (unique) user
with the given `userId`. -/
theorem removeOrgFromUser_clears (us : List User) (uid oid : String) (now : Nat)
    (hnd : (us.map (fun u => u.userId)).Nodup) :
    ∀ u ∈ removeOrganizationFromUser us uid oid now,
      u.userId = uid → oid ∉ u.organizationIds := by
  unfold removeOrganizationFromUser
  induction us with
  | nil => intro u hu; cases hu
  | cons u0 rest ih =>
    unfold updateFirstUser
    split_ifs with h
    · intro u hu huid
      rcases List.mem_cons.mp hu with rfl | hmem
      · simp [List.mem_filter]
      · exfalso
        rcases List.nodup_cons.mp hnd with ⟨h0, _⟩
        apply h0
        have hm : u.userId ∈ rest.map (fun u => u.userId) := List.mem_map.mpr ⟨u, hmem, rfl⟩
        rw [huid] at hm
        show u0.userId ∈ rest.map (fun u => u.userId)
        rw [h]
        exact hm
    · intro u hu huid
      rcases List.mem_cons.mp hu with rfl | hmem
      · exact absurd huid h
      · exact ih (List.nodup_cons.mp hnd).2 u hmem huid

/-- The reverse-reference removal loop clears the organization reference of
every member whose best-effort step does not fail (unique user ids). -/
theorem users_fold_clears (rvf : String → Bool) (oid : String) (now : Nat)
    (l : List OrganizationMember) (us : List User)
    (hnd : (us.map (fun u => u.userId)).Nodup)
    (hfl : ∀ m ∈ l, rvf m.userId = false) :
    ∀ mem ∈ l, ∀ u ∈ l.foldl (fun us2 m =>
        if rvf m.userId then us2 else removeOrganizationFromUser us2 m.userId oid now) us,
      u.userId = mem.userId → oid ∉ u.organizationIds := by
  induction l generalizing us with
  | nil => intro mem hmem; cases hmem
  | cons m0 rest ih =>
    intro mem hmem u hu huid
    rw [List.foldl_cons] at hu
    have h0 : rvf m0.userId = false := hfl m0 (List.mem_cons_self _ _)
    rw [if_neg (by simp [h0])] at hu
    rcases List.mem_cons.mp hmem with rfl | hmem'
    · exact users_fold_keeps_clear rvf oid now mem.userId rest _
        (removeOrgFromUser_clears us mem.userId oid now hnd) u hu huid
    · have hnd' : ((removeOrganizationFromUser us m0.userId oid now).map
          (fun u => u.userId)).Nodup := by
        unfold removeOrganizationFromUser
        rw [updateFirstUser_map_userId us m0.userId
          (fun u => { u with
              organizationIds := u.organizationIds.filter (fun x => !(decide (x = oid)))
              updatedAt := now }) (fun u => rfl)]
        exact hnd
      exact ih _ hnd' (fun x hx => hfl x (List.mem_cons_of_mem _ hx)) mem hmem' u hu huid

/-- Claim C5, amended: when the organization exists and the actor is an
Owner, `DeleteOrganization` succeeds, deletes the organization record,
best-effort deletes every child team record (every child whose deletion does
not fail is gone, assuming unique team ids), and best-effort removes the
organization id from every former member's `organizationIds` (assuming
unique user ids) — but it does NOT remove the deleted teams' ids from any
user's `teamIds`: the whole `teamIds` column of the user collection is left
byte-for-byte unchanged. -/
theorem c5_amended_delete_organization_effects :
    ∀ st oid userID now tdf rvf org,
      findOrg st.orgs oid = some org →
      org.hasRole userID [OrganizationMemberRole.owner] = true →
      (deleteOrganization st oid userID now tdf rvf).err = none ∧
      (deleteOrganization st oid userID now tdf rvf).store.orgs = removeFirstOrg st.orgs oid ∧
      ((deleteOrganization st oid userID now tdf rvf).store.users.map (fun u => u.teamIds) =
        st.users.map (fun u => u.teamIds)) ∧
      ((st.teams.map (fun t => t.id)).Nodup →
        (∀ tid ∈ org.teamIds, tdf tid = false) →
        ∀ t ∈ (deleteOrganization st oid userID now tdf rvf).store.teams,
          t.id ∉ org.teamIds) ∧
      ((st.users.map (fun u => u.userId)).Nodup →
        (∀ m ∈ org.members, rvf m.userId = false) →
        ∀ mem ∈ org.members,
          ∀ u ∈ (deleteOrganization st oid userID now tdf rvf).store.users,
            u.userId = mem.userId → oid ∉ u.organizationIds) := by
  intro st oid userID now tdf rvf org hfind hrole
  have hred : deleteOrganization st oid userID now tdf rvf =
      ⟨none,
       ⟨org.members.foldl (fun us m =>
            if rvf m.userId then us else removeOrganizationFromUser us m.userId oid now)
          st.users,
        removeFirstOrg st.orgs oid,
        org.teamIds.foldl (fun ts tid => if tdf tid then ts else removeFirstTeam ts tid)
          st.teams⟩⟩ := by
    simp [deleteOrganization, hfind, hrole]
  refine ⟨by rw [hred], by rw [hred], ?_, ?_, ?_⟩
  · rw [hred]
    exact users_fold_map_teamIds rvf oid now org.members st.users
  · intro hnd hf
    rw [hred]
    exact delete_teams_fold_clears tdf org.teamIds st.teams hnd hf
  · intro hnd hf mem hmem
    rw [hred]
    exact users_fold_clears rvf oid now org.members st.users hnd hf mem hmem

/-- Claim C5 witness: the amended effects evaluated on the concrete store of
the counterexample — the deletion succeeds, `t1` is gone from the teams
collection, `alice`'s `organizationIds` loses `o1`, and her `teamIds` column
is unchanged (still `["t1"]`). -/
theorem c5_witness_concrete :
    c5Run.err = none ∧
    c5Run.store.orgs = removeFirstOrg c5Store.orgs "o1" ∧
    c5Run.store.users.map (fun u => u.teamIds) = c5Store.users.map (fun u => u.teamIds) ∧
    (∀ t ∈ c5Run.store.teams, t.id ∉ ["t1"]) ∧
    (∀ u ∈ c5Run.store.users, u.userId = "alice" → "o1" ∉ u.organizationIds) := by
  have h := c5_amended_delete_organization_effects c5Store "o1" "alice" 7
    (fun _ => false) (fun _ => false)
    ⟨"o1", "Org One", [⟨"alice", OrganizationMemberRole.owner, 0, ""⟩], ["t1"], 0⟩
    (by decide) (by decide)
  refine ⟨h.1, h.2.1, h.2.2.1, ?_, ?_⟩
  · exact h.2.2.2.1 (by decide) (by decide)
  · intro u hu huid
    exact h.2.2.2.2 (by decide) (by decide)
      ⟨"alice", OrganizationMemberRole.owner, 0, ""⟩ (by decide) u hu huid
